import Mathlib

/-!
Verification of the grid-world simulator: a shallow embedding of its
Spatial Grid, Event Bus, State Store, Entity Registry and Interaction
components, with theorems settling the specification's claims.

Entities are JavaScript objects held by reference; we model an entity
reference by its identifier string and keep the entity's mutable fields
in a store `ents : EId → EntState` inside the grid state.  JavaScript
objects used as keyed tables become total functions returning `Option`
(absent key = `none`); absent cell buckets and empty buckets are
observationally identical in the source (`indexOf` on a fresh array and
initialisation-on-demand), so buckets are total functions to lists.
JavaScript numbers are modelled as `Int` for grid coordinates and `ℚ`
for world coordinates.  String falsiness (`""` and `undefined`/`null`
are falsy) is modelled explicitly where the source branches on it.
-/

namespace PocketHero

/-- Entity reference: the entity's identifier. -/
abbrev EId := String

/-- JS string-or-undefined truthiness test: `undefined`, `null` and `""` are falsy. -/
def strOptFalsy : Option String → Bool
  | none => true
  | some s => s == ""

/-- The mutable fields of an entity object that the grid and the
interaction components read and write (`createEntity` in the entity
system initialises them; `registerEntity`/`moveEntity` mutate them). -/
structure EntState where
  etype : String := ""
  tags : List String := []
  gridX : Int := 0
  gridY : Int := 0
  layer : Nat := 2
  zoneId : Option String := none
  posX : ℚ := 0
  posY : ℚ := 0
  hasTileComp : Bool := false
  tileType : Option String := none
  hasPlayerComp : Bool := false
  playerIsMoving : Bool := false
  playerTargetX : Int := 0
  playerTargetY : Int := 0

/-- A zone record: `{id, width, height, tiles, entities}` (the id is the key). -/
structure Zone where
  width : Int
  height : Int
  tiles : List (List String)
  entities : List EId
deriving DecidableEq

/-- Cell occupancy storage `_cells[zoneId][layer][x][y] = [entities]`. -/
abbrev Cells := String → Nat → Int → Int → List EId

/-- The grid module's private state. -/
structure GridState where
  cellSize : ℚ := 32
  zones : String → Option Zone := fun _ => none
  currentZone : Option String := none
  gwidth : Int := 0
  gheight : Int := 0
  cells : Cells := fun _ _ _ _ => []
  ents : EId → EntState

/-- Grid layer constants. -/
def LAYERS.GROUND : Nat := 0
/-- Grid layer constants. -/
def LAYERS.OBJECT : Nat := 1
/-- Grid layer constants. -/
def LAYERS.ACTOR : Nat := 2
/-- Grid layer constants. -/
def LAYERS.UI : Nat := 3

/-- Update one zone in the zone table. -/
def zset (zs : String → Option Zone) (zid : String) (z : Zone) : String → Option Zone :=
  fun z' => if z' = zid then some z else zs z'

/-- Update one entity's field record. -/
def eset (es : EId → EntState) (e : EId) (st : EntState) : EId → EntState :=
  fun e' => if e' = e then st else es e'

/-- Append an entity to one occupancy bucket (JS `push`). -/
def bucketAppend (c : Cells) (z : String) (l : Nat) (x y : Int) (e : EId) : Cells :=
  fun z' l' x' y' =>
    if z' = z ∧ l' = l ∧ x' = x ∧ y' = y then c z' l' x' y' ++ [e] else c z' l' x' y'

/-- Remove the first occurrence of an entity from one occupancy bucket
(JS `indexOf` + `splice`). -/
def bucketErase (c : Cells) (z : String) (l : Nat) (x y : Int) (e : EId) : Cells :=
  fun z' l' x' y' =>
    if z' = z ∧ l' = l ∧ x' = x ∧ y' = y then (c z' l' x' y').erase e else c z' l' x' y'

/-- Events published by the modules (closed set of the payload shapes the
claims mention). -/
inductive Ev where
  | zoneChange (zoneId : String)
  | entityMove (e : EId) (fromX fromY toX toY : Int)
  | gridChanged (x y : Int) (tileId : String) (zoneId : String)
  | dialogOpen (entity actor : EId) (text : String)
  | pickupEv (entity actor : EId) (item : Option String)
  | toggleEv (entity actor : EId) (state : Bool)
  | basicEv (entity actor : EId)
  | entityDestroy (e : EId)
deriving DecidableEq

namespace Grid

/-- `width × height` matrix filled with `'empty'` (the `createZone` default fill). -/
def mkEmptyTiles (w h : Int) : List (List String) :=
  List.replicate h.toNat (List.replicate w.toNat "empty")

/-- `createZone(zoneId, config)`: registers the zone (overwriting any existing
record under that id), default-fills the tile matrix when none is given,
resets the zone's cell buckets, and adopts the zone as current when no
current zone is set (`if (!_currentZone)`, so an empty-string current zone
also counts as unset). -/
def createZone (s : GridState) (zoneId : String) (w h : Int)
    (ctiles : List (List String)) : GridState :=
  let tiles := if ctiles.isEmpty then mkEmptyTiles w h else ctiles
  let zone : Zone := { width := w, height := h, tiles := tiles, entities := [] }
  let cells' : Cells := fun z' l x y => if z' = zoneId then [] else s.cells z' l x y
  if strOptFalsy s.currentZone then
    { s with zones := zset s.zones zoneId zone, cells := cells',
             currentZone := some zoneId, gwidth := w, gheight := h }
  else
    { s with zones := zset s.zones zoneId zone, cells := cells' }

/-- `setCurrentZone(zoneId)`: fails when the zone is unknown; otherwise
switches the current zone, caches its dimensions and publishes a
zone-change event. -/
def setCurrentZone (s : GridState) (zoneId : String) :
    GridState × Bool × List Ev :=
  match s.zones zoneId with
  | none => (s, false, [])
  | some z =>
      ({ s with currentZone := some zoneId, gwidth := z.width, gheight := z.height },
       true, [Ev.zoneChange zoneId])

/-- `isValidPosition(x, y, zoneId)`: zone must exist and `(x,y)` must be
inside its bounds.  The zone argument is the caller-supplied id (possibly
`undefined`, in which case the lookup fails). -/
def isValidPosition (s : GridState) (x y : Int) (zoneId : Option String) : Bool :=
  match zoneId with
  | none => false
  | some zid =>
      match s.zones zid with
      | none => false
      | some z => decide (0 ≤ x) && decide (0 ≤ y) && decide (x < z.width) && decide (y < z.height)

/-- `getTileAt(x, y, zoneId)`: bounds-checked read of the tile matrix.
A missing row, a missing element or a falsy tile id (`''`) yields `null`. -/
def getTileAt (s : GridState) (x y : Int) (zoneId : Option String) : Option String :=
  match zoneId with
  | none => none
  | some zid =>
      match s.zones zid with
      | none => none
      | some z =>
          if x < 0 ∨ y < 0 ∨ z.width ≤ x ∨ z.height ≤ y then none
          else
            match z.tiles.get? y.toNat with
            | none => none
            | some row =>
                match row.get? x.toNat with
                | none => none
                | some t => if t = "" then none else some t

/-- `getEntitiesAt(x, y, layer, zoneId)` for a specific layer: the occupancy
bucket, or `[]` when the zone is unknown. -/
def getEntitiesAt (s : GridState) (x y : Int) (layer : Nat)
    (zoneId : Option String) : List EId :=
  match zoneId with
  | none => []
  | some zid =>
      match s.zones zid with
      | none => []
      | some _ => s.cells zid layer x y

/-- Grow-and-set used by `registerEntity`'s tile mirroring: push empty rows
while `tiles.length <= y`, pad row `y` with `'empty'` while its length is
`<= x`, then write the tile type at `[y][x]`. -/
def setTile2D (tiles : List (List String)) (x y : Nat) (t : String) :
    List (List String) :=
  let tiles1 := tiles ++ List.replicate (y + 1 - tiles.length) []
  let row := tiles1.getD y []
  let row1 := row ++ List.replicate (x + 1 - row.length) "empty"
  tiles1.set y (row1.set x t)

/-- `registerEntity(entity, x, y, layer, zoneId)`: fails when the zone is
unknown or the position is out of bounds; otherwise pushes the entity into
the occupancy bucket, sets its grid/layer/zone/world-position fields,
appends it to the zone's entity list unless already present, and for a
ground-layer entity carrying a tile component with a truthy type, mirrors
that type into the zone's tile matrix. -/
def registerEntity (s : GridState) (e : EId) (x y : Int) (layer : Nat)
    (zoneId : Option String) : GridState × Bool :=
  match zoneId with
  | none => (s, false)
  | some zid =>
      match s.zones zid with
      | none => (s, false)
      | some z =>
          if isValidPosition s x y (some zid) then
            let cells' := bucketAppend s.cells zid layer x y e
            let es := s.ents e
            let es' := { es with gridX := x, gridY := y, layer := layer,
                                 zoneId := some zid,
                                 posX := x * s.cellSize + s.cellSize / 2,
                                 posY := y * s.cellSize + s.cellSize / 2 }
            let zents := if e ∈ z.entities then z.entities else z.entities ++ [e]
            let tiles' :=
              if layer = LAYERS.GROUND ∧ es.hasTileComp ∧ ¬ strOptFalsy es.tileType then
                setTile2D z.tiles x.toNat y.toNat (es.tileType.getD "")
              else z.tiles
            let z' : Zone := { z with entities := zents, tiles := tiles' }
            ({ s with cells := cells', ents := eset s.ents e es',
                      zones := zset s.zones zid z' }, true)
          else (s, false)

/-- `unregisterEntity(entity)`: fails when the entity's zone id is falsy or
names no zone; otherwise removes the first occurrence of the entity from
the bucket keyed by its current fields and from the zone's entity list.
The entity's `zoneId` field is left in place. -/
def unregisterEntity (s : GridState) (e : EId) : GridState × Bool :=
  let es := s.ents e
  if strOptFalsy es.zoneId then (s, false)
  else
    match es.zoneId with
    | none => (s, false)
    | some zid =>
        match s.zones zid with
        | none => (s, false)
        | some z =>
            let cells' := bucketErase s.cells zid es.layer es.gridX es.gridY e
            let z' : Zone := { z with entities := z.entities.erase e }
            ({ s with cells := cells', zones := zset s.zones zid z' }, true)

/-- `moveEntity(entity, newX, newY)`: fails without mutation when the
destination is out of bounds for the entity's zone; otherwise removes the
entity from its old bucket, pushes it into the new bucket, updates its
grid and world position and publishes an entity-move event. -/
def moveEntity (s : GridState) (e : EId) (newX newY : Int) :
    GridState × Bool × List Ev :=
  let es := s.ents e
  if isValidPosition s newX newY es.zoneId then
    match es.zoneId with
    | none => (s, false, [])
    | some zid =>
        let cells1 := bucketErase s.cells zid es.layer es.gridX es.gridY e
        let cells2 := bucketAppend cells1 zid es.layer newX newY e
        let es' := { es with gridX := newX, gridY := newY,
                             posX := newX * s.cellSize + s.cellSize / 2,
                             posY := newY * s.cellSize + s.cellSize / 2 }
        ({ s with cells := cells2, ents := eset s.ents e es' }, true,
         [Ev.entityMove e es.gridX es.gridY newX newY])
  else (s, false, [])

/-- `gridToWorld(gridX, gridY)`: centre of the cell in world coordinates. -/
def gridToWorld (s : GridState) (gx gy : Int) : ℚ × ℚ :=
  (gx * s.cellSize + s.cellSize / 2, gy * s.cellSize + s.cellSize / 2)

/-- `worldToGrid(worldX, worldY)`: floor division by the cell size. -/
def worldToGrid (s : GridState) (wx wy : ℚ) : Int × Int :=
  (⌊wx / s.cellSize⌋, ⌊wy / s.cellSize⌋)

/-- `isWalkable(x, y, requiredTags, excludedTags, zoneId)`, exactly as the
source computes it: invalid position or missing tile id is never walkable;
otherwise start from `walkable = true` and, **only when a ground-layer tile
entity is present** (its `tags` array is always truthy), override to
`false` on a `'water'` tag or a `'water'`/`'teleporter'` tile id, override
back to `true` on a `'walkable'` tag, and force `false` when a caller
excluded tag is present on that tile entity; finally any object-layer
entity tagged `'solid'` forces `false`.  `requiredTags` is accepted and
ignored, as in the source. -/
def isWalkable (s : GridState) (x y : Int) (requiredTags excludedTags : List String)
    (zoneId : Option String) : Bool :=
  if isValidPosition s x y zoneId then
    match getTileAt s x y zoneId with
    | none => false
    | some tileId =>
        let tileEntity := (getEntitiesAt s x y LAYERS.GROUND zoneId).head?
        let w1 : Bool := true
        let w2 : Bool :=
          match tileEntity with
          | some te =>
              let tags := (s.ents te).tags
              let hz := if tags.contains "water" || tileId == "water" || tileId == "teleporter"
                        then false else w1
              if tags.contains "walkable" then true else hz
          | none => w1
        let w3 : Bool :=
          match tileEntity with
          | some te =>
              if decide (excludedTags ≠ []) &&
                 excludedTags.any (fun t => (s.ents te).tags.contains t)
              then false else w2
          | none => w2
        let objectEntities := getEntitiesAt s x y LAYERS.OBJECT zoneId
        if objectEntities.any (fun oe => (s.ents oe).tags.contains "solid")
        then false else w3
  else false

end Grid

namespace Events

/-- A handler reference: the function object's identity.  Two subscriptions
of the same function share one identity; distinct functions have distinct
identities.  Handler behaviour lives in a separate environment. -/
abbrev HId := Nat

/-- Outcome of running one handler: normal return or a thrown error. -/
inductive JsResult where
  | ok
  | exn (msg : String)
deriving DecidableEq

/-- The bus's private `_handlers` table: event name → subscription list in
subscription order (an absent key behaves like an empty list). -/
def Bus := String → List HId

/-- The initial empty handler table. -/
def emptyBus : Bus := fun _ => []

/-- `subscribe(eventName, handler)`: push the handler onto the event's list. -/
def subscribe (b : Bus) (eventName : String) (h : HId) : Bus :=
  fun n => if n = eventName then b n ++ [h] else b n

/-- The closure returned by `subscribe`: on call it runs
`_handlers[eventName] = _handlers[eventName].filter(h => h !== handler)`. -/
def unsubscribeCall (b : Bus) (eventName : String) (h : HId) : Bus :=
  fun n => if n = eventName then (b n).filter (fun h' => h' != h) else b n

/-- `publish`'s `forEach` loop with its `try`/`catch`: run each handler in
order; a thrown error is caught and logged and the loop continues with
every remaining handler. -/
def publishGo (behave : HId → Nat → JsResult) (d : Nat) :
    List HId → List (HId × JsResult)
  | [] => []
  | h :: rest =>
      match behave h d with
      | .ok => (h, .ok) :: publishGo behave d rest
      | .exn m => (h, .exn m) :: publishGo behave d rest

/-- `publish(eventName, data)`: the invocation trace over the event's
current subscription list. -/
def publish (behave : HId → Nat → JsResult) (b : Bus) (eventName : String)
    (d : Nat) : List (HId × JsResult) :=
  publishGo behave d (b eventName)

end Events

namespace StateManager

/-- JavaScript values held by the state tree.  `jnull` is JS `null`;
JS `undefined` is represented as an absent key / `Option.none`. -/
inductive JVal where
  | jnull
  | jbool (b : Bool)
  | jnum (n : Int)
  | jstr (s : String)
  | jobj (fields : List (String × JVal))

/-- JS strict inequality check `current[lastPart] !== value`, negated:
primitives compare by value; objects compare by reference, and a value
handed to `set` is a fresh reference, never identical to a stored object,
so object comparisons yield `false`. -/
def jsStrictEq : JVal → JVal → Bool
  | .jnull, .jnull => true
  | .jbool a, .jbool b => a == b
  | .jnum a, .jnum b => a == b
  | .jstr a, .jstr b => a == b
  | _, _ => false

/-- Property read on an object: `none` is JS `undefined`. -/
def objGet (fields : List (String × JVal)) (k : String) : Option JVal :=
  fields.lookup k

/-- Property write on an object: replace the entry in place when the key
exists (JS objects hold each key once, so replacing the first match is
exact), otherwise append the new key (JS insertion key order). -/
def objSet (fields : List (String × JVal)) (k : String) (v : JVal) :
    List (String × JVal) :=
  match fields with
  | [] => [(k, v)]
  | (k', w) :: t => if k' = k then (k, v) :: t else (k', w) :: objSet t k v

/-- JS `path.split('.')` over the character list: always returns at least
one (possibly empty) segment; a dot starts a new segment. -/
def splitDotsGo : List Char → List (List Char)
  | [] => [[]]
  | c :: t =>
      if c = '.' then [] :: splitDotsGo t
      else
        match splitDotsGo t with
        | h :: r => (c :: h) :: r
        | [] => [[c]]

/-- JS `path.split('.')`. -/
def pathSplit (s : String) : List String :=
  (splitDotsGo s.data).map String.mk

/-- JS `parts.join('.')`. -/
def joinDots : List String → String
  | [] => ""
  | [p] => p
  | p :: rest => p ++ "." ++ joinDots rest

/-- The `get` walk: at each step, an `undefined` or `null` current value
falls back to the default (`none`); property access on a primitive yields
`undefined`; the final value is returned as-is (a final `null` is *not*
replaced by the default, matching the source's `!== undefined` check). -/
def resolve : Option JVal → List String → Option JVal
  | cur, [] => cur
  | cur, p :: rest =>
      match cur with
      | none => none
      | some .jnull => none
      | some (.jobj fields) => resolve (objGet fields p) rest
      | some _ => resolve none rest

/-- `get(path, defaultValue)`. -/
def get (root : List (String × JVal)) (path : String) (dflt : JVal) : JVal :=
  match resolve (some (.jobj root)) (pathSplit path) with
  | some v => v
  | none => dflt

/-- The navigation-and-write loop of `set(path, value)` over the parent
segments and the final segment.  Result: `none` models a thrown
`TypeError` (property access on `undefined`); otherwise the updated
fields together with `none` when no change was detected (no
notification) or `some oldValue` when the change check fired
(`oldValue = none` is JS `undefined`).  A missing or `null` intermediate
is replaced by a fresh `{}`; a primitive intermediate silently swallows
the write (property assignment on a primitive is a no-op), after which
the loop's next property access — or, when the primitive sits at the
parent-of-leaf position, the read-back of the just-lost write —
produces `undefined`, which still differs from the new value, so the
change check fires with `oldValue = undefined` without storing. -/
def setGo : List (String × JVal) → List String → String → JVal →
    Option (List (String × JVal) × Option (Option JVal))
  | fields, [], lastPart, v =>
      match objGet fields lastPart with
      | some old =>
          if jsStrictEq old v then some (fields, none)
          else some (objSet fields lastPart v, some (some old))
      | none => some (objSet fields lastPart v, some none)
  | fields, p :: rest, lastPart, v =>
      match objGet fields p with
      | some (.jobj f2) =>
          match setGo f2 rest lastPart v with
          | some (f2', info) => some (objSet fields p (.jobj f2'), info)
          | none => none
      | some .jnull =>
          match setGo [] rest lastPart v with
          | some (f2', info) => some (objSet fields p (.jobj f2'), info)
          | none => none
      | none =>
          match setGo [] rest lastPart v with
          | some (f2', info) => some (objSet fields p (.jobj f2'), info)
          | none => none
      | some _ =>
          match rest with
          | [] => some (fields, some none)
          | _ :: _ => none

/-- The `while (parts.length > 1)` loop of `notifySubscribers`, with an
explicit fuel bound (each iteration pops one segment, so the segment
count bounds the iterations): the chain of strict ancestor segment
lists, deepest first. -/
def parentChainGo : Nat → List String → List (List String)
  | 0, _ => []
  | n + 1, parts =>
      if parts.length ≤ 1 then []
      else parts.dropLast :: parentChainGo n parts.dropLast

/-- The chain of strict ancestor segment lists, deepest first. -/
def parentChain (parts : List String) : List (List String) :=
  parentChainGo parts.length parts

/-- A subscriber callback's identity. -/
abbrev SubId := Nat

/-- One callback invocation: subscriber, notified path, new-value argument
and old-value argument (`none` = JS `undefined`). -/
abbrev NotifCall := SubId × String × Option JVal × Option JVal

/-- `notifySubscribers(path, newValue, oldValue)`: exact-path subscribers
receive `(newValue, oldValue, path)`, then each strict ancestor path's
subscribers receive the ancestor's current value (read from the updated
tree with a `null` default) as both arguments. -/
def notifySubscribers (subs : String → List SubId) (root : List (String × JVal))
    (path : String) (newValue : JVal) (oldValue : Option JVal) : List NotifCall :=
  ((subs path).map (fun sid => (sid, path, some newValue, oldValue)))
    ++ (parentChain (pathSplit path)).flatMap (fun pp =>
        let parentPath := joinDots pp
        let parentValue := get root parentPath .jnull
        (subs parentPath).map (fun sid => (sid, parentPath, some parentValue, some parentValue)))

/-- `set(path, value)`: split the path, navigate/write, and on a detected
change notify.  `none` models the `TypeError` escaping `set`. -/
def set (subs : String → List SubId) (root : List (String × JVal)) (path : String)
    (v : JVal) : Option (List (String × JVal) × List NotifCall) :=
  let parts := pathSplit path
  match setGo root parts.dropLast (parts.getLastD "") v with
  | none => none
  | some (root', none) => some (root', [])
  | some (root', some old) => some (root', notifySubscribers subs root' path v old)

end StateManager

/-- The world state the interaction components touch: the grid module's
state plus the entity registry's key table (`_entities`, modelled by its
key list in insertion order — entity field values already live in
`GridState.ents`). -/
structure World where
  grid : GridState
  registry : List EId

namespace EntityManager

/-- `destroyEntity(entityOrId)`: fails when the id is unknown; otherwise
unregisters from the grid when the entity's zone id is truthy, publishes
an entity-destroy event and deletes the table entry. -/
def destroyEntity (w : World) (e : EId) : World × Bool × List Ev :=
  if e ∈ w.registry then
    let g1 := if strOptFalsy (w.grid.ents e).zoneId then w.grid
              else (Grid.unregisterEntity w.grid e).1
    ({ grid := g1, registry := w.registry.erase e }, true, [Ev.entityDestroy e])
  else (w, false, [])

end EntityManager

namespace Interactable

/-- `interactionData` of an interactable component.  A caller-supplied
custom handler is an opaque world transformer. -/
structure IData where
  targetZone : Option String := none
  targetX : Option Int := none
  targetY : Option Int := none
  text : Option String := none
  item : Option String := none
  state : Bool := false
  handler : Option (World → World × List Ev) := none

/-- The per-component state `init` sets up (highlight colours and the
direction-indicator flag are presentation-only and carry no behaviour
the claims mention). -/
structure CompState where
  interactionType : String := "basic"
  validDirections : List String := ["up", "right", "down", "left"]
  idata : IData := {}
  isHighlighted : Bool := false

/-- Payload of an interaction-request event: `{actor, target, direction}`
(entities by reference; the component compares `data.target.id` with its
own entity's id). -/
structure Request where
  actor : EId
  target : EId
  direction : String

/-- `_handleDialogInteraction`: publish a dialog-open event; a falsy
configured text falls back to `Interacted with <entity.type>`. -/
def handleDialog (w : World) (c : CompState) (entity : EId) (d : Request) :
    World × CompState × List Ev :=
  let dialogText :=
    match c.idata.text with
    | some t => if t = "" then "Interacted with " ++ (w.grid.ents entity).etype else t
    | none => "Interacted with " ++ (w.grid.ents entity).etype
  (w, c, [Ev.dialogOpen entity d.actor dialogText])

/-- `_handlePickupInteraction`: publish a pickup event, unregister the
entity from the grid, then destroy it in the registry. -/
def handlePickup (w : World) (c : CompState) (entity : EId) (d : Request) :
    World × CompState × List Ev :=
  let g1 := (Grid.unregisterEntity w.grid entity).1
  let r := EntityManager.destroyEntity { w with grid := g1 } entity
  (r.1, c, Ev.pickupEv entity d.actor c.idata.item :: r.2.2)

/-- `_handleTeleportInteraction`: hard-fail (log only, no effect) when the
target data is missing or falsy; when the target zone differs from the
actor's current zone id, unregister the actor, switch the current zone,
set the actor's zone id and re-register it at the target cell; otherwise
move the actor within its zone.  Afterwards snap the actor's world
position to the destination cell centre and clear the player component's
in-flight movement state. -/
def handleTeleport (w : World) (c : CompState) (entity : EId) (d : Request) :
    World × CompState × List Ev :=
  if strOptFalsy c.idata.targetZone ∨ c.idata.targetX = none ∨ c.idata.targetY = none then
    (w, c, [])
  else
    let tz := c.idata.targetZone.getD ""
    let tx := c.idata.targetX.getD 0
    let ty := c.idata.targetY.getD 0
    let moved :=
      if (w.grid.ents d.actor).zoneId ≠ some tz then
        let ga := (Grid.unregisterEntity w.grid d.actor).1
        let r := Grid.setCurrentZone ga tz
        let gb := { r.1 with ents := eset r.1.ents d.actor { r.1.ents d.actor with zoneId := some tz } }
        ((Grid.registerEntity gb d.actor tx ty ((gb.ents d.actor).layer) (some tz)).1, r.2.2)
      else
        let r := Grid.moveEntity w.grid d.actor tx ty
        (r.1, r.2.2)
    let g2 := moved.1
    let wp := Grid.gridToWorld g2 tx ty
    let ea := { g2.ents d.actor with posX := wp.1, posY := wp.2 }
    let g3 := { g2 with ents := eset g2.ents d.actor ea }
    let g4 :=
      if (g3.ents d.actor).hasPlayerComp then
        let eb := { g3.ents d.actor with playerIsMoving := false,
                                         playerTargetX := tx, playerTargetY := ty }
        { g3 with ents := eset g3.ents d.actor eb }
      else g3
    ({ w with grid := g4 }, c, moved.2)

/-- `_handleToggleInteraction`: flip the boolean in the interaction data
and publish a toggle event carrying the new state. -/
def handleToggle (w : World) (c : CompState) (entity : EId) (d : Request) :
    World × CompState × List Ev :=
  let ns := ! c.idata.state
  (w, { c with idata := { c.idata with state := ns } }, [Ev.toggleEv entity d.actor ns])

/-- The component's interaction-request handler: ignore requests targeting
another entity; reject (log only, no effect) when the request's direction
is not in the configured valid-direction set; otherwise dispatch on the
interaction type and flash the highlight on. -/
def handleInteraction (w : World) (c : CompState) (entity : EId) (d : Request) :
    World × CompState × List Ev :=
  if d.target ≠ entity then (w, c, [])
  else if ¬ c.validDirections.contains d.direction then (w, c, [])
  else
    let r :=
      if c.interactionType = "dialog" then handleDialog w c entity d
      else if c.interactionType = "pickup" then handlePickup w c entity d
      else if c.interactionType = "teleport" then handleTeleport w c entity d
      else if c.interactionType = "toggle" then handleToggle w c entity d
      else if c.interactionType = "custom" then
        match c.idata.handler with
        | some h => let r2 := h w; (r2.1, c, r2.2)
        | none => (w, c, [])
      else (w, c, [Ev.basicEv entity d.actor])
    (r.1, { r.2.1 with isHighlighted := true }, r.2.2)

end Interactable

namespace Helpers

/-- Decimal digit characters. -/
def digitChar : Nat → Char
  | 0 => '0' | 1 => '1' | 2 => '2' | 3 => '3' | 4 => '4'
  | 5 => '5' | 6 => '6' | 7 => '7' | 8 => '8' | _ => '9'

/-- Decimal rendering of a natural number, as the template literal
`${counter}` renders the id counter. -/
def natDecimal (n : Nat) : String :=
  if n = 0 then "0"
  else String.mk (((Nat.digits 10 n).map digitChar).reverse)

/-- `generateId(prefix)`: increment the shared counter, then render
`${prefix}${counter}`. -/
def generateId (idCounter : Nat) (pre : String) : String × Nat :=
  (pre ++ natDecimal (idCounter + 1), idCounter + 1)

end Helpers

namespace EntityManager

/-- The slice of registry state claim C10 concerns: the id counter shared
through `Helpers.generateId` and the key list of `_entities`. -/
structure RegState where
  idCounter : Nat
  tableKeys : List String

/-- `_entities[id] = entity`: overwrite in place when the key exists
(key list unchanged), otherwise append the new key. -/
def tableInsert (keys : List String) (id : String) : List String :=
  if id ∈ keys then keys else keys ++ [id]

/-- `createEntity(type, config)` for a config without `id`: the id is
`Helpers.generateId('entity-')` and the entity is stored under it. -/
def createEntityNoId (st : RegState) : RegState × String :=
  let r := Helpers.generateId st.idCounter "entity-"
  ({ idCounter := r.2, tableKeys := tableInsert st.tableKeys r.1 }, r.1)

/-- `n` consecutive `createEntity` calls without configured ids. -/
def runCreates : RegState → Nat → RegState
  | st, 0 => st
  | st, n + 1 => runCreates (createEntityNoId st).1 n

/-- The ids such a run generates, in order, starting from counter `c0`. -/
def genIds (c0 n : Nat) : List String :=
  (List.range n).map (fun i => "entity-" ++ Helpers.natDecimal (c0 + i + 1))

end EntityManager

/-! ### Sequences of grid operations and occupancy invariants -/

/-- The grid module's initial state (no zones yet), over an arbitrary
entity field store. -/
def initGrid (ents0 : EId → EntState) : GridState :=
  { cellSize := 32, zones := fun _ => none, currentZone := none,
    gwidth := 0, gheight := 0, cells := fun _ _ _ _ => [], ents := ents0 }

/-- No entity of the store starts with a zone assignment. -/
def CleanEnts (ents0 : EId → EntState) : Prop := ∀ e, (ents0 e).zoneId = none

/-- One grid operation (return values discarded by the sequence). -/
inductive GOp where
  | createZone (zoneId : String) (w h : Int) (tiles : List (List String))
  | setCurrentZone (zoneId : String)
  | register (e : EId) (x y : Int) (layer : Nat) (zoneId : Option String)
  | move (e : EId) (x y : Int)
  | unregister (e : EId)

/-- Apply one grid operation. -/
def applyOp (s : GridState) : GOp → GridState
  | .createZone z w h t => Grid.createZone s z w h t
  | .setCurrentZone z => (Grid.setCurrentZone s z).1
  | .register e x y l z => (Grid.registerEntity s e x y l z).1
  | .move e x y => (Grid.moveEntity s e x y).1
  | .unregister e => (Grid.unregisterEntity s e).1

/-- Run a sequence of grid operations. -/
def runOps (s : GridState) (ops : List GOp) : GridState := ops.foldl applyOp s

/-- A state produced by an arbitrary sequence of grid operations from a
clean initial state. -/
def ReachAny (s : GridState) : Prop :=
  ∃ ents0 ops, CleanEnts ents0 ∧ s = runOps (initGrid ents0) ops

/-- The entity currently occupies some occupancy bucket. -/
def Registered (s : GridState) (e : EId) : Prop :=
  ∃ z l x y, e ∈ s.cells z l x y

/-- States reachable when the mutating operations are used as intended:
`registerEntity` is invoked only on entities not currently occupying a
bucket and `moveEntity` only on entities currently occupying one;
`unregisterEntity`, `createZone` and `setCurrentZone` are unrestricted. -/
inductive ReachDisc : GridState → Prop where
  | start (ents0 : EId → EntState) (h : CleanEnts ents0) : ReachDisc (initGrid ents0)
  | czone (s : GridState) (zoneId : String) (w h : Int) (tiles : List (List String)) :
      ReachDisc s → ReachDisc (Grid.createZone s zoneId w h tiles)
  | setcz (s : GridState) (zoneId : String) :
      ReachDisc s → ReachDisc (Grid.setCurrentZone s zoneId).1
  | reg (s : GridState) (e : EId) (x y : Int) (layer : Nat) (zoneId : Option String)
      (hfresh : ¬ Registered s e) :
      ReachDisc s → ReachDisc (Grid.registerEntity s e x y layer zoneId).1
  | mv (s : GridState) (e : EId) (x y : Int) (hreg : Registered s e) :
      ReachDisc s → ReachDisc (Grid.moveEntity s e x y).1
  | unreg (s : GridState) (e : EId) :
      ReachDisc s → ReachDisc (Grid.unregisterEntity s e).1

/-- Claim C2's invariant exactly as stated: every entity *with a zone
assignment* occupies exactly the bucket keyed by its fields (and no
other), at most once, and appears exactly once in its zone's entity
list. -/
def OccupancyClaim (s : GridState) : Prop :=
  ∀ e z, (s.ents e).zoneId = some z →
    (∀ z' l x y, e ∈ s.cells z' l x y ↔
        (z' = z ∧ l = (s.ents e).layer ∧ x = (s.ents e).gridX ∧ y = (s.ents e).gridY))
    ∧ (s.cells z (s.ents e).layer (s.ents e).gridX (s.ents e).gridY).count e ≤ 1
    ∧ ∃ zo, s.zones z = some zo ∧ zo.entities.count e = 1

/-- The occupancy invariant the code maintains under disciplined use,
phrased about entities *currently present* in a bucket or entity list
(an unregistered entity keeps its stale `zoneId` field, so field-level
zone assignment alone implies nothing). -/
structure GridInv (s : GridState) : Prop where
  bucket_sound : ∀ e z l x y, e ∈ s.cells z l x y →
      (s.ents e).zoneId = some z ∧ (s.ents e).layer = l ∧
      (s.ents e).gridX = x ∧ (s.ents e).gridY = y
  bucket_once : ∀ e z l x y, (s.cells z l x y).count e ≤ 1
  zlist_once : ∀ e z zo, s.zones z = some zo → zo.entities.count e ≤ 1
  zlist_sound : ∀ e z zo, s.zones z = some zo → e ∈ zo.entities →
      (s.ents e).zoneId = some z ∧
      e ∈ s.cells z (s.ents e).layer (s.ents e).gridX (s.ents e).gridY
  bucket_zlist : ∀ e z l x y, e ∈ s.cells z l x y →
      ∃ zo, s.zones z = some zo ∧ e ∈ zo.entities

namespace Grid

/-- Whether the (optional) ground tile entity carries a tag. -/
def tileEntityTag (s : GridState) (te : Option EId) (tag : String) : Bool :=
  match te with
  | some e => (s.ents e).tags.contains tag
  | none => false

/-- Modelled from claim C3's words: the layered override order with the
hazard override applied from the tile id alone, whether or not a ground
tile entity is present at the cell. -/
def walkableClaimed (s : GridState) (x y : Int) (excludedTags : List String)
    (zoneId : Option String) : Bool :=
  if isValidPosition s x y zoneId then
    match getTileAt s x y zoneId with
    | none => false
    | some tileId =>
        let te := (getEntitiesAt s x y LAYERS.GROUND zoneId).head?
        let w1 : Bool := true
        let w2 := if tileEntityTag s te "water" || tileId == "water" || tileId == "teleporter"
                  then false else w1
        let w3 := if tileEntityTag s te "walkable" then true else w2
        let w4 := if excludedTags.any (fun t => tileEntityTag s te t) then false else w3
        if (getEntitiesAt s x y LAYERS.OBJECT zoneId).any
            (fun oe => (s.ents oe).tags.contains "solid")
        then false else w4
  else false

/-- The amended claim C3: as `walkableClaimed`, but the hazard override
(water tag / water or teleporter tile id) applies only when a ground tile
entity is present at the cell. -/
def walkableAmended (s : GridState) (x y : Int) (excludedTags : List String)
    (zoneId : Option String) : Bool :=
  if isValidPosition s x y zoneId then
    match getTileAt s x y zoneId with
    | none => false
    | some tileId =>
        let te := (getEntitiesAt s x y LAYERS.GROUND zoneId).head?
        let w1 : Bool := true
        let w2 := if te.isSome &&
                     (tileEntityTag s te "water" || tileId == "water" || tileId == "teleporter")
                  then false else w1
        let w3 := if tileEntityTag s te "walkable" then true else w2
        let w4 := if excludedTags.any (fun t => tileEntityTag s te t) then false else w3
        if (getEntitiesAt s x y LAYERS.OBJECT zoneId).any
            (fun oe => (s.ents oe).tags.contains "solid")
        then false else w4
  else false

end Grid

namespace StateManager

/-- Is a resolved value a (non-null) primitive? -/
def IsPrimB : Option JVal → Bool
  | some (.jnum _) => true
  | some (.jstr _) => true
  | some (.jbool _) => true
  | _ => false

/-- No strict-proper stage of the navigation chain resolves to a non-null
primitive (the proviso of the amended claim C8): `parts` is the list of
parent segments of the path. -/
def PrefixOk (root : List (String × JVal)) (parts : List String) : Prop :=
  ∀ k, 1 ≤ k → k ≤ parts.length →
    IsPrimB (resolve (some (.jobj root)) (parts.take k)) = false

end StateManager

/-! ### Concrete states used by witnesses and counterexamples -/

/-- A store of fresh entities: no tags, no components, no zone assignment. -/
def blankEnts : EId → EntState := fun _ => {}

/-- A 1×1 zone whose tile matrix holds `'water'` but with no tile
entities registered. -/
def waterGrid : GridState :=
  Grid.createZone (initGrid blankEnts) "W" 1 1 [["water"]]

/-- Entity store for the 3×3 walkability scenario: `e11` is a water tile
entity tagged `water`; every other id is a grass tile entity tagged
`walkable`. -/
def scenEnts : EId → EntState := fun e =>
  if e = "e11" then
    { etype := "tile", tags := ["water"], hasTileComp := true, tileType := some "water" }
  else
    { etype := "tile", tags := ["walkable"], hasTileComp := true, tileType := some "grass" }

/-- Create the 3×3 zone and register its nine ground tile entities (the
tile mirroring writes `water` at (1,1) and `grass` elsewhere). -/
def scenOps : List GOp :=
  [.createZone "Z" 3 3 [],
   .register "e00" 0 0 0 (some "Z"), .register "e10" 1 0 0 (some "Z"),
   .register "e20" 2 0 0 (some "Z"), .register "e01" 0 1 0 (some "Z"),
   .register "e11" 1 1 0 (some "Z"), .register "e21" 2 1 0 (some "Z"),
   .register "e02" 0 2 0 (some "Z"), .register "e12" 1 2 0 (some "Z"),
   .register "e22" 2 2 0 (some "Z")]

/-- The 3×3 walkability scenario state. -/
def scenGrid : GridState := runOps (initGrid scenEnts) scenOps

/-- Register then unregister: the entity keeps its stale zone assignment
while occupying no bucket and no entity list. -/
def c2Ops : List GOp :=
  [.createZone "A" 1 1 [], .register "e" 0 0 2 (some "A"), .unregister "e"]

/-- A 1×1 zone `A` with the entity `e` registered at (0,0) on the actor
layer. -/
def regGrid : GridState :=
  (Grid.registerEntity (Grid.createZone (initGrid blankEnts) "A" 1 1 [])
    "e" 0 0 2 (some "A")).1

/-- The register-then-unregister state. -/
def c2Grid : GridState := runOps (initGrid blankEnts) c2Ops

/-- Entity store for the teleport scenario: `p` is the player actor. -/
def teleEnts : EId → EntState := fun e =>
  if e = "p" then { etype := "player", hasPlayerComp := true } else { etype := "sign" }

/-- Zones `A` (3×3, current) and `B` (6×6); the actor `p` registered in
`A` at (2,2) on the actor layer. -/
def teleOps : List GOp :=
  [.createZone "A" 3 3 [], .createZone "B" 6 6 [], .register "p" 2 2 2 (some "A")]

/-- The teleport scenario world. -/
def teleWorld : World :=
  { grid := runOps (initGrid teleEnts) teleOps, registry := ["p", "t"] }

/-- The interactable `t`'s component: teleport to `B` at (5,5), valid
from `up` only. -/
def teleComp : Interactable.CompState :=
  { interactionType := "teleport", validDirections := ["up"],
    idata := { targetZone := some "B", targetX := some 5, targetY := some 5 } }

/-- An accepted interaction request from `p` to `t` with direction `up`. -/
def teleReq : Interactable.Request := { actor := "p", target := "t", direction := "up" }

/-- A rejected request: direction `left` against valid directions `[up]`. -/
def rejReq : Interactable.Request := { actor := "p", target := "t", direction := "left" }

/-- Zones `A` (3×3, current) and the empty-string-named zone (6×6); the
actor `p` registered in `A` at (2,2). -/
def emptyZoneOps : List GOp :=
  [.createZone "A" 3 3 [], .createZone "" 6 6 [], .register "p" 2 2 2 (some "A")]

/-- World in which a zone whose id is the empty string exists. -/
def emptyZoneWorld : World :=
  { grid := runOps (initGrid teleEnts) emptyZoneOps, registry := ["p", "t"] }

/-- Teleport component targeting the empty-string zone at (5,5). -/
def emptyZoneComp : Interactable.CompState :=
  { interactionType := "teleport", validDirections := ["up"],
    idata := { targetZone := some "", targetX := some 5, targetY := some 5 } }

/-- Bus with two distinct handlers subscribed to `evt`, in order. -/
def busTwo : Events.Bus :=
  Events.subscribe (Events.subscribe Events.emptyBus "evt" 1) "evt" 2

/-- Handler behaviour where handler 1 throws and every other returns. -/
def behaveThrow1 : Events.HId → Nat → Events.JsResult :=
  fun h _ => if h = 1 then .exn "boom" else .ok

/-- Bus with the *same* handler function subscribed twice to `evt`. -/
def busDup : Events.Bus :=
  Events.subscribe (Events.subscribe Events.emptyBus "evt" 5) "evt" 5

/-- Handler behaviour where every handler returns normally. -/
def behaveOk : Events.HId → Nat → Events.JsResult := fun _ _ => .ok

/-- State tree `{a: 5}`: the path `a.b` runs through a primitive. -/
def c8Root : List (String × StateManager.JVal) := [("a", .jnum 5)]

/-- Subscribers: 1 at the exact path `a.b`, 2 at its ancestor `a`. -/
def c8Subs : String → List StateManager.SubId :=
  fun p => if p = "a.b" then [1] else if p = "a" then [2] else []

/-- A single subscriber, 7, registered at path `stats`. -/
def statsSubs : String → List StateManager.SubId :=
  fun p => if p = "stats" then [7] else []

/-! ## Theorems -/

/-- Claim C9: `worldToGrid(gridToWorld(x,y)) = (x,y)` for all integer grid
coordinates and every positive cell size — the cell centre
`x·cs + cs/2` floors back to `x`. -/
theorem C9_grid_world_roundtrip (s : GridState) (gx gy : Int)
    (hcs : 0 < s.cellSize) :
    Grid.worldToGrid s (Grid.gridToWorld s gx gy).1 (Grid.gridToWorld s gx gy).2
      = (gx, gy) := by
  have hne : s.cellSize ≠ 0 := ne_of_gt hcs
  have key : ∀ g : Int, ((g * s.cellSize + s.cellSize / 2) / s.cellSize : ℚ) = g + 1 / 2 := by
    intro g
    field_simp
    ring
  have flo : ∀ g : Int, ⌊((g : ℚ) + 1 / 2 : ℚ)⌋ = g := by
    intro g
    rw [Int.floor_int_add]
    norm_num
  simp only [Grid.gridToWorld, Grid.worldToGrid, key, flo]

/-- Witness for C9 at cell size 32 and cell (3,4). -/
theorem C9_grid_world_roundtrip_witness :
    0 < (initGrid blankEnts).cellSize ∧
    Grid.worldToGrid (initGrid blankEnts)
        (Grid.gridToWorld (initGrid blankEnts) 3 4).1
        (Grid.gridToWorld (initGrid blankEnts) 3 4).2 = (3, 4) :=
  ⟨by norm_num [initGrid], C9_grid_world_roundtrip (initGrid blankEnts) 3 4 (by norm_num [initGrid])⟩

/-- Claim C4: `moveEntity` to a destination out of bounds for the entity's
zone returns failure and performs no mutation: the state — all occupancy
buckets and the entity's grid and world position — is returned exactly as
it was, and no event is published. -/
theorem C4_move_out_of_bounds (s : GridState) (e : EId) (nx ny : Int)
    (z : String) (zo : Zone)
    (hz : (s.ents e).zoneId = some z) (hzo : s.zones z = some zo)
    (hoob : nx < 0 ∨ ny < 0 ∨ zo.width ≤ nx ∨ zo.height ≤ ny) :
    Grid.moveEntity s e nx ny = (s, false, []) := by
  have hval : Grid.isValidPosition s nx ny (s.ents e).zoneId = false := by
    rw [hz]
    simp only [Grid.isValidPosition, hzo]
    rcases hoob with h | h | h | h <;> simp <;> omega
  simp [Grid.moveEntity, hval]

/-- Witness for C4: moving the entity of `c2Grid` to (5,5) in its 1×1 zone. -/
theorem C4_move_out_of_bounds_witness :
    (c2Grid.ents "e").zoneId = some "A" ∧
    Grid.moveEntity c2Grid "e" 5 5 = (c2Grid, false, []) :=
  ⟨by decide,
   C4_move_out_of_bounds c2Grid "e" 5 5 "A"
     { width := 1, height := 1, tiles := [["empty"]], entities := [] }
     (by decide) (by decide) (by decide)⟩

/-- Claim C6: `publish` invokes every currently-subscribed handler in
subscription order, and a throwing handler is isolated — the rest of the
handlers of the same publish call still run.  In particular, with
handlers 1 and 2 subscribed in that order and handler 1 throwing,
handler 2 is still invoked exactly once. -/
theorem C6_publish_isolation :
    (∀ (behave : Events.HId → Nat → Events.JsResult) (b : Events.Bus)
        (name : String) (d : Nat),
        (Events.publish behave b name d).map Prod.fst = b name) ∧
    Events.publish behaveThrow1 busTwo "evt" 0 = [(1, .exn "boom"), (2, .ok)] ∧
    (Events.publish behaveThrow1 busTwo "evt" 0).countP (fun p => p.1 == 2) = 1 := by
  refine ⟨?_, by decide, by decide⟩
  intro behave b name d
  show (Events.publishGo behave d (b name)).map Prod.fst = b name
  generalize b name = hs
  induction hs with
  | nil => rfl
  | cons h rest ih => cases hbe : behave h d <;> simp [Events.publishGo, hbe, ih]

/-- Counterexample to claim C7: subscribing the *same* handler function
twice and calling one returned `unsubscribe()` removes **both** list
entries (the filter drops every reference-identical instance), so the
handler is invoked zero times per publish afterwards — not once, as the
claim states. -/
theorem C7_counterexample :
    (Events.unsubscribeCall busDup "evt" 5) "evt" = [] ∧
    (Events.publish behaveOk (Events.unsubscribeCall busDup "evt" 5) "evt" 0).countP
      (fun p => p.1 == 5) = 0 := by
  constructor <;> decide

/-- Amended claim C7: `unsubscribe()` removes every instance identical to
its captured handler from that event's list (so exactly the one instance
whenever the handler was subscribed once), leaves the counts of every
other handler and every other event untouched, and repeated calls are
no-ops. -/
theorem C7_unsubscribe_amended (b : Events.Bus) (name : String) (h : Events.HId) :
    ((Events.unsubscribeCall b name h) name).count h = 0 ∧
    (∀ h', h' ≠ h →
      ((Events.unsubscribeCall b name h) name).count h' = (b name).count h') ∧
    (∀ n', n' ≠ name → (Events.unsubscribeCall b name h) n' = b n') ∧
    Events.unsubscribeCall (Events.unsubscribeCall b name h) name h
      = Events.unsubscribeCall b name h := by
  refine ⟨?_, ?_, ?_, ?_⟩
  · simp [Events.unsubscribeCall, List.count_eq_zero, List.mem_filter]
  · intro h' hne
    have hrw : (Events.unsubscribeCall b name h) name = (b name).filter (fun x => x != h) := by
      simp [Events.unsubscribeCall]
    rw [hrw, List.count_filter (by simp [hne])]
  · intro n' hn
    simp [Events.unsubscribeCall, hn]
  · funext n
    by_cases hn : n = name
    · subst hn
      simp [Events.unsubscribeCall, List.filter_filter]
    · simp [Events.unsubscribeCall, hn]

/-- Witness for the amended C7 on the twice-subscribed bus: the handler is
fully removed, a distinct handler's count is untouched, and a second
`unsubscribe()` call is a no-op. -/
theorem C7_unsubscribe_amended_witness :
    ((Events.unsubscribeCall busDup "evt" 5) "evt").count 5 = 0 ∧
    ((Events.unsubscribeCall busDup "evt" 5) "evt").count 4 = (busDup "evt").count 4 ∧
    Events.unsubscribeCall (Events.unsubscribeCall busDup "evt" 5) "evt" 5
      = Events.unsubscribeCall busDup "evt" 5 :=
  ⟨(C7_unsubscribe_amended busDup "evt" 5).1,
   (C7_unsubscribe_amended busDup "evt" 5).2.1 4 (by decide),
   (C7_unsubscribe_amended busDup "evt" 5).2.2.2⟩

/-- Claim C5: an interactable whose valid-direction set does not contain
the direction of a request targeting its own entity rejects the request
with no effect at all: the world (grid occupancy, registry, actor state)
and the component state (including its highlight flag) are returned
unchanged and no event is published, so no dialog, pickup, teleport,
toggle or custom effect runs. -/
theorem C5_direction_rejected (w : World) (c : Interactable.CompState) (entity : EId)
    (d : Interactable.Request)
    (htgt : d.target = entity)
    (hdir : c.validDirections.contains d.direction = false) :
    Interactable.handleInteraction w c entity d = (w, c, []) := by
  unfold Interactable.handleInteraction
  rw [if_neg (by simp [htgt]), if_pos (by simpa using hdir)]

/-- Witness for C5: direction `left` against valid directions `["up"]`. -/
theorem C5_direction_rejected_witness :
    rejReq.target = "t" ∧
    teleComp.validDirections.contains rejReq.direction = false ∧
    Interactable.handleInteraction teleWorld teleComp "t" rejReq
      = (teleWorld, teleComp, []) :=
  ⟨by decide, by decide,
   C5_direction_rejected teleWorld teleComp "t" rejReq (by decide) (by decide)⟩

/-- Counterexample to claim C3: in a 1×1 zone whose tile matrix holds
`'water'` but where no ground tile entity is registered, `isWalkable`
returns `true` — the hard-coded water/teleporter tile-id override sits
inside the `if (tileEntity && tileEntity.tags)` guard, so with no tile
entity the claimed override order (which would give `false`) is not
followed. -/
theorem C3_counterexample :
    Grid.getTileAt waterGrid 0 0 (some "W") = some "water" ∧
    Grid.getEntitiesAt waterGrid 0 0 LAYERS.GROUND (some "W") = [] ∧
    Grid.isWalkable waterGrid 0 0 [] [] (some "W") = true ∧
    Grid.walkableClaimed waterGrid 0 0 [] (some "W") = false :=
  ⟨by decide, by decide, by decide, by decide⟩

/-- Amended claim C3: `isWalkable` computes exactly the claimed layered
override order — default walkable, hazard override, explicit walkable
override, excluded tags, solid objects, with out-of-bounds or missing
tiles never walkable — *except* that the hazard override (water tag, or
water/teleporter tile id) applies only when a ground tile entity is
present at the cell.  In the 3×3 scenario (water tile entity tagged
`water` at (1,1), grass tile entities tagged `walkable` elsewhere),
(1,1) is not walkable and (0,0) is. -/
theorem C3_walkability :
    (∀ (s : GridState) (x y : Int) (req exc : List String) (zid : Option String),
        Grid.isWalkable s x y req exc zid = Grid.walkableAmended s x y exc zid) ∧
    Grid.isWalkable scenGrid 1 1 [] [] (some "Z") = false ∧
    Grid.isWalkable scenGrid 0 0 [] [] (some "Z") = true := by
  refine ⟨?_, by decide, by decide⟩
  intro s x y req exc zid
  unfold Grid.isWalkable Grid.walkableAmended
  cases hval : Grid.isValidPosition s x y zid
  · simp
  · simp only [if_true]
    cases htile : Grid.getTileAt s x y zid
    · simp
    · simp only []
      cases hte : (Grid.getEntitiesAt s x y LAYERS.GROUND zid).head?
      · simp [hte, Grid.tileEntityTag]
      · cases exc with
        | nil => simp [hte, Grid.tileEntityTag]
        | cons t ts => simp [hte, Grid.tileEntityTag]

/-- Decimal digit characters are distinct for distinct digits. -/
theorem digitChar_inj_lt (a b : Nat) (ha : a < 10) (hb : b < 10)
    (hab : Helpers.digitChar a = Helpers.digitChar b) : a = b := by
  have h : ∀ a b : Fin 10, Helpers.digitChar a.val = Helpers.digitChar b.val → a = b := by
    decide
  exact congrArg Fin.val (h ⟨a, ha⟩ ⟨b, hb⟩ hab)

/-- Digit-wise rendering is injective on lists of digits. -/
theorem mapDigitChar_inj : ∀ l1 l2 : List Nat, (∀ d ∈ l1, d < 10) → (∀ d ∈ l2, d < 10) →
    l1.map Helpers.digitChar = l2.map Helpers.digitChar → l1 = l2 := by
  intro l1
  induction l1 with
  | nil =>
      intro l2 _ _ h
      cases l2 with
      | nil => rfl
      | cons b t2 => simp at h
  | cons a t ih =>
      intro l2 h1 h2 h
      cases l2 with
      | nil => simp at h
      | cons b t2 =>
          simp only [List.map_cons, List.cons.injEq] at h
          have hab := digitChar_inj_lt a b (h1 a (by simp)) (h2 b (by simp)) h.1
          subst hab
          have ht := ih t2 (fun d hd => h1 d (by simp [hd])) (fun d hd => h2 d (by simp [hd])) h.2
          rw [ht]

/-- `natDecimal` is injective on positive numbers (the id counter is
always positive when rendered). -/
theorem natDecimal_pos_inj (m n : Nat) (hm : 0 < m) (hn : 0 < n)
    (h : Helpers.natDecimal m = Helpers.natDecimal n) : m = n := by
  unfold Helpers.natDecimal at h
  rw [if_neg (Nat.pos_iff_ne_zero.mp hm), if_neg (Nat.pos_iff_ne_zero.mp hn)] at h
  have hdata := congrArg String.data h
  simp only [String.mk] at hdata
  have hrev := List.reverse_injective hdata
  have hdig := mapDigitChar_inj _ _
      (fun d hd => Nat.digits_lt_base (by norm_num) hd)
      (fun d hd => Nat.digits_lt_base (by norm_num) hd) hrev
  have := congrArg (Nat.ofDigits 10) hdig
  rwa [Nat.ofDigits_digits, Nat.ofDigits_digits] at this

/-- Appending to a fixed id stem is left-cancellative. -/
theorem strAppend_left_cancel (p a b : String) (h : p ++ a = p ++ b) : a = b := by
  obtain ⟨da⟩ := a
  obtain ⟨db⟩ := b
  obtain ⟨dp⟩ := p
  have hd := congrArg String.data h
  simp only [String.data_append] at hd
  exact congrArg String.mk (List.append_cancel_left hd)

/-- Unfolding one generated id off the front of a run of generated ids. -/
theorem genIds_succ (c0 n : Nat) :
    EntityManager.genIds c0 (n + 1)
      = ("entity-" ++ Helpers.natDecimal (c0 + 1)) :: EntityManager.genIds (c0 + 1) n := by
  unfold EntityManager.genIds
  rw [List.range_succ_eq_map, List.map_cons, List.map_map]
  refine congrArg₂ _ ?_ ?_
  · simp
  · refine List.map_congr_left (fun i _ => ?_)
    simp only [Function.comp_apply]
    have harg : c0 + (i + 1) + 1 = c0 + 1 + i + 1 := by omega
    rw [harg]

/-- Generated ids with distinct counter values are distinct. -/
theorem genId_ne (c1 c2 : Nat) (hne : c1 ≠ c2) :
    ("entity-" ++ Helpers.natDecimal (c1 + 1)) ≠ ("entity-" ++ Helpers.natDecimal (c2 + 1)) := by
  intro h
  have := natDecimal_pos_inj (c1 + 1) (c2 + 1) (Nat.succ_pos _) (Nat.succ_pos _)
      (strAppend_left_cancel _ _ _ h)
  omega

/-- A run of generated ids is duplicate-free. -/
theorem genIds_nodup (c0 n : Nat) : (EntityManager.genIds c0 n).Nodup := by
  unfold EntityManager.genIds
  refine List.Nodup.map ?_ (List.nodup_range n)
  intro i j hij
  have := natDecimal_pos_inj (c0 + i + 1) (c0 + j + 1) (Nat.succ_pos _) (Nat.succ_pos _)
      (strAppend_left_cancel _ _ _ hij)
  omega

/-- A generated id never collides with ids generated later in the run. -/
theorem genId_not_mem_later (c0 n : Nat) :
    ("entity-" ++ Helpers.natDecimal (c0 + 1)) ∉ EntityManager.genIds (c0 + 1) n := by
  unfold EntityManager.genIds
  intro hmem
  obtain ⟨i, _, hi⟩ := List.mem_map.mp hmem
  have := natDecimal_pos_inj (c0 + 1 + i + 1) (c0 + 1) (Nat.succ_pos _) (Nat.succ_pos _)
      (strAppend_left_cancel _ _ _ hi)
  omega

/-- A run of id-less `createEntity` calls from a table disjoint from the
ids it will generate appends exactly those ids and advances the counter. -/
theorem runCreates_spec : ∀ (n : Nat) (st : EntityManager.RegState),
    List.Disjoint st.tableKeys (EntityManager.genIds st.idCounter n) →
    (EntityManager.runCreates st n).tableKeys
        = st.tableKeys ++ EntityManager.genIds st.idCounter n ∧
    (EntityManager.runCreates st n).idCounter = st.idCounter + n := by
  intro n
  induction n with
  | zero => intro st _; simp [EntityManager.runCreates, EntityManager.genIds]
  | succ n ih =>
      intro st hdisj
      rw [genIds_succ] at hdisj
      have hid1 : ("entity-" ++ Helpers.natDecimal (st.idCounter + 1)) ∉ st.tableKeys := by
        intro hmem
        exact hdisj hmem (by simp)
      have hstep : EntityManager.runCreates st (n + 1)
          = EntityManager.runCreates (EntityManager.createEntityNoId st).1 n := rfl
      have hst' : (EntityManager.createEntityNoId st).1
          = ⟨st.idCounter + 1,
             st.tableKeys ++ ["entity-" ++ Helpers.natDecimal (st.idCounter + 1)]⟩ := by
        simp [EntityManager.createEntityNoId, Helpers.generateId, EntityManager.tableInsert,
              hid1]
      have hdisj' : List.Disjoint
          (st.tableKeys ++ ["entity-" ++ Helpers.natDecimal (st.idCounter + 1)])
          (EntityManager.genIds (st.idCounter + 1) n) := by
        intro a ha
        rcases List.mem_append.mp ha with ha1 | ha2
        · intro hmem; exact hdisj ha1 (by simp [hmem])
        · simp at ha2
          subst ha2
          exact genId_not_mem_later st.idCounter n
      have := ih ⟨st.idCounter + 1,
          st.tableKeys ++ ["entity-" ++ Helpers.natDecimal (st.idCounter + 1)]⟩ hdisj'
      rw [hstep, hst']
      refine ⟨?_, ?_⟩
      · rw [this.1, genIds_succ]
        simp
      · rw [this.2]
        show st.idCounter + 1 + n = st.idCounter + (n + 1)
        omega

/-- Claim C10: a sequence of `createEntity` calls whose configs omit an
explicit id generates pairwise distinct ids (the generator's counter is
strictly increasing), so starting from an empty registry table the run
adds one fresh entry per call and never overwrites an existing entry:
the final key list is exactly the duplicate-free list of generated ids. -/
theorem C10_generated_ids_distinct (c0 n : Nat) :
    (EntityManager.genIds c0 n).Nodup ∧
    (EntityManager.runCreates ⟨c0, []⟩ n).tableKeys = EntityManager.genIds c0 n ∧
    (EntityManager.runCreates ⟨c0, []⟩ n).idCounter = c0 + n := by
  have h := runCreates_spec n ⟨c0, []⟩ (by intro a ha; simp at ha)
  exact ⟨genIds_nodup c0 n, by simpa using h.1, by simpa using h.2⟩

/-! ### Helper lemmas about the grid's table updates -/

@[simp]
theorem eset_self (es : EId → EntState) (e : EId) (st : EntState) :
    eset es e st e = st := by simp [eset]

theorem eset_other (es : EId → EntState) (e e' : EId) (st : EntState) (h : e' ≠ e) :
    eset es e st e' = es e' := by simp [eset, h]

@[simp]
theorem zset_self (zs : String → Option Zone) (zid : String) (z : Zone) :
    zset zs zid z zid = some z := by simp [zset]

theorem zset_other (zs : String → Option Zone) (zid z' : String) (z : Zone) (h : z' ≠ zid) :
    zset zs zid z z' = zs z' := by simp [zset, h]

@[simp]
theorem bucketAppend_self (c : Cells) (z : String) (l : Nat) (x y : Int) (e : EId) :
    bucketAppend c z l x y e z l x y = c z l x y ++ [e] := by simp [bucketAppend]

theorem bucketAppend_ne (c : Cells) (z : String) (l : Nat) (x y : Int) (e : EId)
    (z' : String) (l' : Nat) (x' y' : Int)
    (h : ¬ (z' = z ∧ l' = l ∧ x' = x ∧ y' = y)) :
    bucketAppend c z l x y e z' l' x' y' = c z' l' x' y' := by simp [bucketAppend, h]

@[simp]
theorem bucketErase_self (c : Cells) (z : String) (l : Nat) (x y : Int) (e : EId) :
    bucketErase c z l x y e z l x y = (c z l x y).erase e := by simp [bucketErase]

theorem bucketErase_ne (c : Cells) (z : String) (l : Nat) (x y : Int) (e : EId)
    (z' : String) (l' : Nat) (x' y' : Int)
    (h : ¬ (z' = z ∧ l' = l ∧ x' = x ∧ y' = y)) :
    bucketErase c z l x y e z' l' x' y' = c z' l' x' y' := by simp [bucketErase, h]

/-- An element occurring at most once does not survive its own erasure. -/
theorem not_mem_erase_of_count_le_one (l : List EId) (a : EId) (h : l.count a ≤ 1) :
    a ∉ l.erase a := by
  intro hm
  have h1 : 0 < (l.erase a).count a := List.count_pos_iff_mem.mpr hm
  have h2 : (l.erase a).count a = l.count a - 1 := List.count_erase_self a l
  omega

/-- `unregisterEntity` on an entity with a truthy zone id naming an
existing zone: erase from the bucket keyed by its fields and from the
zone's entity list. -/
theorem unregisterEntity_eq (s : GridState) (e : EId) (zA : String) (zoA : Zone)
    (hz : (s.ents e).zoneId = some zA) (hne : zA ≠ "") (hzo : s.zones zA = some zoA) :
    Grid.unregisterEntity s e =
      ({ s with cells := bucketErase s.cells zA (s.ents e).layer (s.ents e).gridX
                  (s.ents e).gridY e,
                zones := zset s.zones zA { zoA with entities := zoA.entities.erase e } },
       true) := by
  simp only [Grid.unregisterEntity, hz, hzo, strOptFalsy]
  simp [hne]

/-- `setCurrentZone` on an existing zone. -/
theorem setCurrentZone_eq (s : GridState) (zid : String) (zo : Zone)
    (hzo : s.zones zid = some zo) :
    Grid.setCurrentZone s zid =
      ({ s with currentZone := some zid, gwidth := zo.width, gheight := zo.height },
       true, [Ev.zoneChange zid]) := by
  unfold Grid.setCurrentZone
  rw [hzo]

/-- `registerEntity` on an existing zone at a valid position. -/
theorem registerEntity_eq (s : GridState) (e : EId) (x y : Int) (l : Nat)
    (zid : String) (zo : Zone) (hzo : s.zones zid = some zo)
    (hval : Grid.isValidPosition s x y (some zid) = true) :
    Grid.registerEntity s e x y l (some zid) =
      ({ s with cells := bucketAppend s.cells zid l x y e,
                ents := eset s.ents e { s.ents e with gridX := x, gridY := y, layer := l, zoneId := some zid, posX := x * s.cellSize + s.cellSize / 2, posY := y * s.cellSize + s.cellSize / 2 },
                zones := zset s.zones zid
                  { zo with
                    entities := (if e ∈ zo.entities then zo.entities else zo.entities ++ [e]),
                    tiles := (if l = LAYERS.GROUND ∧ (s.ents e).hasTileComp ∧
                                  ¬ strOptFalsy (s.ents e).tileType = true then
                                Grid.setTile2D zo.tiles x.toNat y.toNat
                                  ((s.ents e).tileType.getD "")
                              else zo.tiles) } }, true) := by
  unfold Grid.registerEntity
  simp only [hzo, hval]
  simp

/-- Amended claim C1 (teleport): for a dispatch reaching a teleport
interactable — request targets the interactable's entity, direction
valid — whose data names an existing non-empty target zone `Z` with an
in-bounds target cell, where `Z` differs from the actor's (non-empty,
existing) current zone and the actor occupies its keyed bucket at most
once: afterwards the actor's `zoneId` is `Z`, its grid position is the
target cell, its old bucket no longer contains it, zone `Z`'s bucket at
the target cell on its layer contains it, and the grid's current zone
has been switched to `Z`. -/
theorem C1_teleport_cross_zone (w : World) (c : Interactable.CompState) (selfE : EId)
    (d : Interactable.Request) (Z zA : String) (x y : Int) (zoA zoB : Zone)
    (htgt : d.target = selfE)
    (hdir : c.validDirections.contains d.direction = true)
    (htype : c.interactionType = "teleport")
    (htz : c.idata.targetZone = some Z) (hZne : Z ≠ "")
    (htx : c.idata.targetX = some x) (hty : c.idata.targetY = some y)
    (hza : (w.grid.ents d.actor).zoneId = some zA) (hAne : zA ≠ "")
    (hzoA : w.grid.zones zA = some zoA)
    (hzoB : w.grid.zones Z = some zoB)
    (hx0 : 0 ≤ x) (hy0 : 0 ≤ y) (hxw : x < zoB.width) (hyh : y < zoB.height)
    (hZA : Z ≠ zA)
    (hcount : (w.grid.cells zA (w.grid.ents d.actor).layer (w.grid.ents d.actor).gridX
        (w.grid.ents d.actor).gridY).count d.actor ≤ 1) :
    (((Interactable.handleInteraction w c selfE d).1.grid.ents d.actor).zoneId = some Z) ∧
    (((Interactable.handleInteraction w c selfE d).1.grid.ents d.actor).gridX = x) ∧
    (((Interactable.handleInteraction w c selfE d).1.grid.ents d.actor).gridY = y) ∧
    d.actor ∉ (Interactable.handleInteraction w c selfE d).1.grid.cells zA
        (w.grid.ents d.actor).layer (w.grid.ents d.actor).gridX (w.grid.ents d.actor).gridY ∧
    d.actor ∈ (Interactable.handleInteraction w c selfE d).1.grid.cells Z
        (w.grid.ents d.actor).layer x y ∧
    (Interactable.handleInteraction w c selfE d).1.grid.currentZone = some Z := by
  have hred : (Interactable.handleInteraction w c selfE d).1
      = (Interactable.handleTeleport w c selfE d).1 := by
    unfold Interactable.handleInteraction
    rw [if_neg (by simp [htgt]), if_neg (by simpa using hdir),
        if_neg (by simp [htype]), if_neg (by simp [htype]), if_pos (by simp [htype])]
  rw [hred]
  have hZA' : zA ≠ Z := Ne.symm hZA
  by_cases hp : (w.grid.ents d.actor).hasPlayerComp = true <;>
    refine ⟨?_, ?_, ?_, ?_, ?_, ?_⟩ <;>
    simp [Interactable.handleTeleport, Grid.unregisterEntity, Grid.setCurrentZone,
          Grid.registerEntity, Grid.isValidPosition, eset, zset, bucketAppend, bucketErase,
          strOptFalsy, htz, htx, hty, hza, hzoA, hzoB, hZne, hAne, hx0, hy0, hxw, hyh,
          hp, hZA, hZA'] <;>
    exact not_mem_erase_of_count_le_one _ _ hcount

/-- Witness for the amended C1: the actor `p` teleports from zone `A`
(2,2) to zone `B` (5,5). -/
theorem C1_teleport_cross_zone_witness :
    ((Interactable.handleInteraction teleWorld teleComp "t" teleReq).1.grid.ents "p").zoneId
        = some "B" ∧
    ((Interactable.handleInteraction teleWorld teleComp "t" teleReq).1.grid.ents "p").gridX = 5 ∧
    ((Interactable.handleInteraction teleWorld teleComp "t" teleReq).1.grid.ents "p").gridY = 5 ∧
    "p" ∉ (Interactable.handleInteraction teleWorld teleComp "t" teleReq).1.grid.cells "A" 2 2 2 ∧
    "p" ∈ (Interactable.handleInteraction teleWorld teleComp "t" teleReq).1.grid.cells "B" 2 5 5 ∧
    (Interactable.handleInteraction teleWorld teleComp "t" teleReq).1.grid.currentZone
        = some "B" :=
  C1_teleport_cross_zone teleWorld teleComp "t" teleReq "B" "A" 5 5
    ⟨3, 3, Grid.mkEmptyTiles 3 3, ["p"]⟩ ⟨6, 6, Grid.mkEmptyTiles 6 6, []⟩
    (by decide) (by decide) (by decide) (by decide) (by decide) (by decide) (by decide)
    (by decide) (by decide) (by decide) (by decide) (by decide) (by decide) (by decide)
    (by decide) (by decide) (by decide)

/-- Counterexample to claim C1 as stated: a zone whose id is the empty
string exists, its cell (5,5) is in bounds, it differs from the actor's
current zone `A`, and the request direction is valid — yet the handler's
truthiness test treats the empty-string `targetZone` as missing teleport
data and returns with no effect (only the highlight flashes): the actor
keeps zone `A` and position (2,2) and the current zone is not switched. -/
theorem C1_counterexample :
    (emptyZoneWorld.grid.zones "").isSome = true ∧
    Interactable.handleInteraction emptyZoneWorld emptyZoneComp "t" teleReq
      = (emptyZoneWorld, { emptyZoneComp with isHighlighted := true }, []) ∧
    ((Interactable.handleInteraction emptyZoneWorld emptyZoneComp "t"
        teleReq).1.grid.ents "p").zoneId = some "A" ∧
    (Interactable.handleInteraction emptyZoneWorld emptyZoneComp "t"
        teleReq).1.grid.currentZone = some "A" :=
  ⟨by decide, rfl, by decide, by decide⟩

/-! ### Preservation of the occupancy invariant -/

theorem mem_bucketAppend_iff (c : Cells) (z : String) (l : Nat) (x y : Int)
    (e e' : EId) (z' : String) (l' : Nat) (x' y' : Int) :
    e' ∈ bucketAppend c z l x y e z' l' x' y' ↔
      (e' ∈ c z' l' x' y' ∨ (e' = e ∧ z' = z ∧ l' = l ∧ x' = x ∧ y' = y)) := by
  by_cases hk : z' = z ∧ l' = l ∧ x' = x ∧ y' = y <;> simp [bucketAppend, hk]

theorem count_bucketAppend (c : Cells) (z : String) (l : Nat) (x y : Int)
    (e e' : EId) (z' : String) (l' : Nat) (x' y' : Int) :
    (bucketAppend c z l x y e z' l' x' y').count e' =
      (c z' l' x' y').count e' +
        (if e' = e ∧ z' = z ∧ l' = l ∧ x' = x ∧ y' = y then 1 else 0) := by
  by_cases hk : z' = z ∧ l' = l ∧ x' = x ∧ y' = y
  · by_cases he : e' = e <;> simp [bucketAppend, hk, he, List.count_append]
  · simp [bucketAppend, hk]

theorem mem_of_mem_bucketErase (c : Cells) (z : String) (l : Nat) (x y : Int)
    (e e' : EId) (z' : String) (l' : Nat) (x' y' : Int)
    (h : e' ∈ bucketErase c z l x y e z' l' x' y') : e' ∈ c z' l' x' y' := by
  by_cases hk : z' = z ∧ l' = l ∧ x' = x ∧ y' = y
  · simp only [bucketErase, if_pos hk] at h
    exact List.mem_of_mem_erase h
  · simpa [bucketErase, hk] using h

theorem mem_bucketErase_of_ne (c : Cells) (z : String) (l : Nat) (x y : Int)
    (e e' : EId) (z' : String) (l' : Nat) (x' y' : Int)
    (hne : e' ≠ e) (h : e' ∈ c z' l' x' y') :
    e' ∈ bucketErase c z l x y e z' l' x' y' := by
  by_cases hk : z' = z ∧ l' = l ∧ x' = x ∧ y' = y
  · simp only [bucketErase, if_pos hk]
    exact (List.mem_erase_of_ne hne).mpr h
  · simpa [bucketErase, hk] using h

theorem count_bucketErase_le (c : Cells) (z : String) (l : Nat) (x y : Int)
    (e e' : EId) (z' : String) (l' : Nat) (x' y' : Int) :
    (bucketErase c z l x y e z' l' x' y').count e' ≤ (c z' l' x' y').count e' := by
  by_cases hk : z' = z ∧ l' = l ∧ x' = x ∧ y' = y
  · simp only [bucketErase, if_pos hk]
    rw [List.count_erase]
    exact Nat.sub_le _ _
  · simp [bucketErase, hk]

/-- Under the invariant, a fresh entity (in no bucket) is in no zone's
entity list either. -/
theorem not_in_zlist_of_fresh {s : GridState} (inv : GridInv s) {e : EId}
    (hfresh : ¬ Registered s e) :
    ∀ z zo, s.zones z = some zo → e ∉ zo.entities := by
  intro z zo hzo hmem
  exact hfresh ⟨z, _, _, _, (inv.zlist_sound e z zo hzo hmem).2⟩

/-- The invariant holds in the initial state. -/
theorem gridInv_init (ents0 : EId → EntState) : GridInv (initGrid ents0) := by
  constructor <;> intro e <;> simp [initGrid]

theorem createZone_cells (s : GridState) (zid : String) (w h : Int)
    (t : List (List String)) :
    (Grid.createZone s zid w h t).cells
      = fun z' l x y => if z' = zid then [] else s.cells z' l x y := by
  unfold Grid.createZone
  split <;> split <;> rfl

theorem createZone_zones (s : GridState) (zid : String) (w h : Int)
    (t : List (List String)) :
    (Grid.createZone s zid w h t).zones
      = zset s.zones zid
          { width := w, height := h,
            tiles := (if t.isEmpty then Grid.mkEmptyTiles w h else t), entities := [] } := by
  unfold Grid.createZone
  split <;> split <;> rfl

theorem createZone_ents (s : GridState) (zid : String) (w h : Int)
    (t : List (List String)) :
    (Grid.createZone s zid w h t).ents = s.ents := by
  unfold Grid.createZone
  split <;> split <;> rfl

/-- `createZone` preserves the invariant: it resets the new zone's buckets
and entity list together. -/
theorem gridInv_createZone {s : GridState} (inv : GridInv s) (zid : String)
    (w h : Int) (t : List (List String)) :
    GridInv (Grid.createZone s zid w h t) := by
  constructor
  · intro e z l x y hm
    rw [createZone_cells] at hm
    rw [createZone_ents]
    by_cases hz : z = zid
    · simp [hz] at hm
    · simp only [hz, if_false] at hm
      exact inv.bucket_sound e z l x y hm
  · intro e z l x y
    rw [createZone_cells]
    by_cases hz : z = zid
    · simp [hz]
    · simp only [hz, if_false]
      exact inv.bucket_once e z l x y
  · intro e z zo hzo
    rw [createZone_zones] at hzo
    by_cases hz : z = zid
    · subst hz
      rw [zset_self] at hzo
      cases hzo
      simp
    · rw [zset_other _ _ _ _ hz] at hzo
      exact inv.zlist_once e z zo hzo
  · intro e z zo hzo hm
    rw [createZone_zones] at hzo
    rw [createZone_ents, createZone_cells]
    by_cases hz : z = zid
    · subst hz
      rw [zset_self] at hzo
      cases hzo
      simp at hm
    · rw [zset_other _ _ _ _ hz] at hzo
      have := inv.zlist_sound e z zo hzo hm
      refine ⟨this.1, ?_⟩
      simp only [hz, if_false]
      exact this.2
  · intro e z l x y hm
    rw [createZone_cells] at hm
    rw [createZone_zones]
    by_cases hz : z = zid
    · simp [hz] at hm
    · simp only [hz, if_false] at hm
      rw [zset_other _ _ _ _ hz]
      exact inv.bucket_zlist e z l x y hm

theorem setCurrentZone_cells (s : GridState) (z : String) :
    (Grid.setCurrentZone s z).1.cells = s.cells := by
  cases hz : s.zones z <;> simp [Grid.setCurrentZone, hz]

theorem setCurrentZone_zones (s : GridState) (z : String) :
    (Grid.setCurrentZone s z).1.zones = s.zones := by
  cases hz : s.zones z <;> simp [Grid.setCurrentZone, hz]

theorem setCurrentZone_ents (s : GridState) (z : String) :
    (Grid.setCurrentZone s z).1.ents = s.ents := by
  cases hz : s.zones z <;> simp [Grid.setCurrentZone, hz]

/-- `setCurrentZone` preserves the invariant (it touches no occupancy
state). -/
theorem gridInv_setCurrentZone {s : GridState} (inv : GridInv s) (z : String) :
    GridInv (Grid.setCurrentZone s z).1 := by
  constructor <;>
    simp only [setCurrentZone_cells, setCurrentZone_zones, setCurrentZone_ents] <;>
    first
      | exact inv.bucket_sound
      | exact inv.bucket_once
      | exact inv.zlist_once
      | exact inv.zlist_sound
      | exact inv.bucket_zlist

/-- `registerEntity` on a fresh entity (occupying no bucket) preserves the
invariant. -/
theorem gridInv_register {s : GridState} (inv : GridInv s) (e : EId) (x y : Int)
    (l : Nat) (zid : Option String) (hfresh : ¬ Registered s e) :
    GridInv (Grid.registerEntity s e x y l zid).1 := by
  have hnotc : ∀ z' l' x' y', e ∉ s.cells z' l' x' y' := by
    intro z' l' x' y' hm
    exact hfresh ⟨z', l', x', y', hm⟩
  have hnotz := not_in_zlist_of_fresh inv hfresh
  match zid with
  | none => exact inv
  | some z =>
    cases hzo : s.zones z with
    | none =>
        have hid : (Grid.registerEntity s e x y l (some z)).1 = s := by
          unfold Grid.registerEntity
          simp [hzo]
        rw [hid]
        exact inv
    | some zo =>
      by_cases hval : Grid.isValidPosition s x y (some z) = true
      · rw [registerEntity_eq s e x y l z zo hzo hval]
        have hzents : (if e ∈ zo.entities then zo.entities else zo.entities ++ [e])
            = zo.entities ++ [e] := if_neg (hnotz z zo hzo)
        refine ⟨?_, ?_, ?_, ?_, ?_⟩
        · intro e' z' l' x' y' hm
          simp only [mem_bucketAppend_iff] at hm
          rcases hm with hm | ⟨he, hz', hl', hx', hy'⟩
          · have hne : e' ≠ e := fun h => hnotc z' l' x' y' (h ▸ hm)
            simp only [eset_other _ _ _ _ hne]
            exact inv.bucket_sound e' z' l' x' y' hm
          · subst he; subst hz'; subst hl'; subst hx'; subst hy'
            simp [eset]
        · intro e' z' l' x' y'
          simp only [count_bucketAppend]
          by_cases hk : e' = e ∧ z' = z ∧ l' = l ∧ x' = x ∧ y' = y
          · obtain ⟨he, hz', hl', hx', hy'⟩ := hk
            rw [he, hz', hl', hx', hy']
            have h0 : (s.cells z l x y).count e = 0 :=
              List.count_eq_zero.mpr (hnotc z l x y)
            simp [h0]
          · rw [if_neg hk, Nat.add_zero]
            exact inv.bucket_once e' z' l' x' y'
        · intro e' z' zo' hz'
          by_cases hzz : z' = z
          · subst hzz
            simp only [zset_self] at hz'
            cases hz'
            simp only [hzents, List.count_append]
            by_cases he : e' = e
            · subst he
              have h0 : zo.entities.count e' = 0 :=
                List.count_eq_zero.mpr (hnotz _ _ hzo)
              simp [h0]
            · have h1 := inv.zlist_once e' _ zo hzo
              simp only [List.count_singleton', if_neg (Ne.symm he)]
              omega
          · simp only [zset_other _ _ _ _ hzz] at hz'
            exact inv.zlist_once e' z' zo' hz'
        · intro e' z' zo' hz' hm
          by_cases hzz : z' = z
          · subst hzz
            simp only [zset_self] at hz'
            cases hz'
            simp only [hzents] at hm
            rcases List.mem_append.mp hm with hm1 | hm2
            · have hne : e' ≠ e := by
                rintro rfl
                exact hnotz _ _ hzo hm1
              simp only [eset_other _ _ _ _ hne]
              have h1 := inv.zlist_sound e' _ zo hzo hm1
              exact ⟨h1.1, (mem_bucketAppend_iff _ _ _ _ _ _ _ _ _ _ _).mpr (Or.inl h1.2)⟩
            · have he : e' = e := by simpa using hm2
              subst he
              refine ⟨by simp [eset], ?_⟩
              simp only [eset_self]
              exact (mem_bucketAppend_iff _ _ _ _ _ _ _ _ _ _ _).mpr
                (Or.inr ⟨rfl, rfl, rfl, rfl, rfl⟩)
          · simp only [zset_other _ _ _ _ hzz] at hz'
            have h1 := inv.zlist_sound e' z' zo' hz' hm
            have hne : e' ≠ e := by
              rintro rfl
              exact hnotz z' zo' hz' hm
            simp only [eset_other _ _ _ _ hne]
            exact ⟨h1.1, (mem_bucketAppend_iff _ _ _ _ _ _ _ _ _ _ _).mpr (Or.inl h1.2)⟩
        · intro e' z' l' x' y' hm
          simp only [mem_bucketAppend_iff] at hm
          rcases hm with hm | ⟨he, hz', hl', hx', hy'⟩
          · obtain ⟨zo', hz', hmem⟩ := inv.bucket_zlist e' z' l' x' y' hm
            by_cases hzz : z' = z
            · subst hzz
              rw [hzo] at hz'
              cases hz'
              refine ⟨_, zset_self _ _ _, ?_⟩
              simp only [hzents]
              exact List.mem_append_left _ hmem
            · refine ⟨zo', ?_, hmem⟩
              simp only [zset_other _ _ _ _ hzz]
              exact hz'
          · subst he; subst hz'
            refine ⟨_, zset_self _ _ _, ?_⟩
            simp only [hzents]
            exact List.mem_append_right _ (by simp)
      · have hid : (Grid.registerEntity s e x y l (some z)).1 = s := by
          unfold Grid.registerEntity
          simp [hzo, hval]
        rw [hid]
        exact inv

/-- `moveEntity` to a valid destination: erase from the old bucket, append
to the new one, update the entity's grid and world position. -/
theorem moveEntity_eq (s : GridState) (e : EId) (nx ny : Int) (zid : String)
    (hz : (s.ents e).zoneId = some zid)
    (hval : Grid.isValidPosition s nx ny (some zid) = true) :
    Grid.moveEntity s e nx ny =
      ({ s with cells := bucketAppend (bucketErase s.cells zid (s.ents e).layer
                  (s.ents e).gridX (s.ents e).gridY e) zid (s.ents e).layer nx ny e,
                ents := eset s.ents e { s.ents e with gridX := nx, gridY := ny, posX := nx * s.cellSize + s.cellSize / 2, posY := ny * s.cellSize + s.cellSize / 2 } },
       true, [Ev.entityMove e (s.ents e).gridX (s.ents e).gridY nx ny]) := by
  unfold Grid.moveEntity
  simp only [hz, hval]
  simp

/-- `unregisterEntity` preserves the invariant. -/
theorem gridInv_unregister {s : GridState} (inv : GridInv s) (e : EId) :
    GridInv (Grid.unregisterEntity s e).1 := by
  cases hzid : (s.ents e).zoneId with
  | none =>
      have hid : (Grid.unregisterEntity s e).1 = s := by
        simp [Grid.unregisterEntity, hzid, strOptFalsy]
      rw [hid]; exact inv
  | some zid =>
      by_cases hze : zid = ""
      · have hid : (Grid.unregisterEntity s e).1 = s := by
          simp [Grid.unregisterEntity, hzid, strOptFalsy, hze]
        rw [hid]; exact inv
      · cases hzo : s.zones zid with
        | none =>
            have hid : (Grid.unregisterEntity s e).1 = s := by
              simp [Grid.unregisterEntity, hzid, strOptFalsy, hze, hzo]
            rw [hid]; exact inv
        | some zo =>
          rw [unregisterEntity_eq s e zid zo hzid hze hzo]
          have hnotnew : ∀ z' l' x' y',
              e ∉ bucketErase s.cells zid (s.ents e).layer (s.ents e).gridX
                (s.ents e).gridY e z' l' x' y' := by
            intro z' l' x' y' hm
            have hcell := mem_of_mem_bucketErase _ _ _ _ _ _ _ _ _ _ _ hm
            have hf := inv.bucket_sound e z' l' x' y' hcell
            have hz' : z' = zid := by
              have := hf.1.symm.trans hzid
              exact Option.some.inj this
            subst hz'
            rw [← hf.2.1, ← hf.2.2.1, ← hf.2.2.2] at hm
            simp only [bucketErase_self] at hm
            exact not_mem_erase_of_count_le_one _ _
              (inv.bucket_once e _ (s.ents e).layer (s.ents e).gridX (s.ents e).gridY) hm
          refine ⟨?_, ?_, ?_, ?_, ?_⟩
          · intro e' z' l' x' y' hm
            have hcell := mem_of_mem_bucketErase _ _ _ _ _ _ _ _ _ _ _ hm
            exact inv.bucket_sound e' z' l' x' y' hcell
          · intro e' z' l' x' y'
            calc (bucketErase s.cells zid (s.ents e).layer (s.ents e).gridX
                    (s.ents e).gridY e z' l' x' y').count e'
                ≤ (s.cells z' l' x' y').count e' :=
                  count_bucketErase_le _ _ _ _ _ _ _ _ _ _ _
              _ ≤ 1 := inv.bucket_once e' z' l' x' y'
          · intro e' z' zo' hz'
            by_cases hzz : z' = zid
            · subst hzz
              simp only [zset_self] at hz'
              cases hz'
              calc (zo.entities.erase e).count e'
                  ≤ zo.entities.count e' := by
                    rw [List.count_erase]
                    exact Nat.sub_le _ _
                _ ≤ 1 := inv.zlist_once e' _ zo hzo
            · simp only [zset_other _ _ _ _ hzz] at hz'
              exact inv.zlist_once e' z' zo' hz'
          · intro e' z' zo' hz' hm
            by_cases hzz : z' = zid
            · subst hzz
              simp only [zset_self] at hz'
              cases hz'
              by_cases hee : e' = e
              · subst hee
                exact absurd hm (not_mem_erase_of_count_le_one _ _
                  (inv.zlist_once e' _ zo hzo))
              · have hmem := List.mem_of_mem_erase hm
                have h1 := inv.zlist_sound e' _ zo hzo hmem
                exact ⟨h1.1, mem_bucketErase_of_ne _ _ _ _ _ _ _ _ _ _ _ hee h1.2⟩
            · simp only [zset_other _ _ _ _ hzz] at hz'
              have h1 := inv.zlist_sound e' z' zo' hz' hm
              have hee : e' ≠ e := by
                rintro rfl
                rw [h1.1] at hzid
                exact hzz (Option.some.inj hzid)
              exact ⟨h1.1, mem_bucketErase_of_ne _ _ _ _ _ _ _ _ _ _ _ hee h1.2⟩
          · intro e' z' l' x' y' hm
            have hee : e' ≠ e := by
              rintro rfl
              exact hnotnew z' l' x' y' hm
            have hcell := mem_of_mem_bucketErase _ _ _ _ _ _ _ _ _ _ _ hm
            obtain ⟨zo', hz', hmem⟩ := inv.bucket_zlist e' z' l' x' y' hcell
            by_cases hzz : z' = zid
            · subst hzz
              rw [hzo] at hz'
              cases hz'
              refine ⟨_, zset_self _ _ _, ?_⟩
              exact (List.mem_erase_of_ne hee).mpr hmem
            · refine ⟨zo', ?_, hmem⟩
              simp only [zset_other _ _ _ _ hzz]
              exact hz'

/-- `moveEntity` on a currently-registered entity preserves the invariant. -/
theorem gridInv_move {s : GridState} (inv : GridInv s) (e : EId) (nx ny : Int)
    (hreg : Registered s e) :
    GridInv (Grid.moveEntity s e nx ny).1 := by
  by_cases hval : Grid.isValidPosition s nx ny (s.ents e).zoneId = true
  case neg =>
    have hv : Grid.isValidPosition s nx ny (s.ents e).zoneId = false :=
      Bool.eq_false_iff.mpr hval
    have hid : (Grid.moveEntity s e nx ny).1 = s := by
      simp [Grid.moveEntity, hv]
    rw [hid]
    exact inv
  case pos =>
    cases hzid : (s.ents e).zoneId with
    | none =>
        rw [hzid] at hval
        simp [Grid.isValidPosition] at hval
    | some zid =>
        rw [hzid] at hval
        rw [moveEntity_eq s e nx ny zid hzid hval]
        have hmF : e ∈ s.cells zid (s.ents e).layer (s.ents e).gridX (s.ents e).gridY := by
          obtain ⟨z0, l0, x0, y0, hm0⟩ := hreg
          have hf := inv.bucket_sound e z0 l0 x0 y0 hm0
          have hz0 : zid = z0 := Option.some.inj (hzid.symm.trans hf.1)
          rw [hz0, hf.2.1, hf.2.2.1, hf.2.2.2]
          exact hm0
        have huniq : ∀ z' l' x' y', e ∈ s.cells z' l' x' y' →
            z' = zid ∧ l' = (s.ents e).layer ∧ x' = (s.ents e).gridX ∧
              y' = (s.ents e).gridY := by
          intro z' l' x' y' h
          have hf := inv.bucket_sound e z' l' x' y' h
          exact ⟨Option.some.inj (hf.1.symm.trans hzid), hf.2.1.symm, hf.2.2.1.symm,
            hf.2.2.2.symm⟩
        have hgone : ∀ z' l' x' y',
            e ∉ bucketErase s.cells zid (s.ents e).layer (s.ents e).gridX
              (s.ents e).gridY e z' l' x' y' := by
          intro z' l' x' y' hm
          have hcell := mem_of_mem_bucketErase _ _ _ _ _ _ _ _ _ _ _ hm
          obtain ⟨hz', hl', hx', hy'⟩ := huniq z' l' x' y' hcell
          subst hz'; subst hl'; subst hx'; subst hy'
          simp only [bucketErase_self] at hm
          exact not_mem_erase_of_count_le_one _ _ (inv.bucket_once e _ _ _ _) hm
        refine ⟨?_, ?_, ?_, ?_, ?_⟩
        · intro e' z' l' x' y' hm
          simp only [mem_bucketAppend_iff] at hm
          rcases hm with hm | ⟨he, hz', hl', hx', hy'⟩
          · have hcell := mem_of_mem_bucketErase _ _ _ _ _ _ _ _ _ _ _ hm
            have hne : e' ≠ e := by
              rintro rfl
              exact hgone z' l' x' y' hm
            simp only [eset_other _ _ _ _ hne]
            exact inv.bucket_sound e' z' l' x' y' hcell
          · subst he; subst hz'; subst hl'; subst hx'; subst hy'
            refine ⟨?_, ?_, ?_, ?_⟩ <;> simp [eset, hzid]
        · intro e' z' l' x' y'
          simp only [count_bucketAppend]
          by_cases hk : e' = e ∧ z' = zid ∧ l' = (s.ents e).layer ∧ x' = nx ∧ y' = ny
          · obtain ⟨he, hz', hl', hx', hy'⟩ := hk
            rw [he, hz', hl', hx', hy']
            have h0 : (bucketErase s.cells zid (s.ents e).layer (s.ents e).gridX
                (s.ents e).gridY e zid (s.ents e).layer nx ny).count e = 0 :=
              List.count_eq_zero.mpr (hgone _ _ _ _)
            simp [h0]
          · rw [if_neg hk, Nat.add_zero]
            calc (bucketErase s.cells zid (s.ents e).layer (s.ents e).gridX
                    (s.ents e).gridY e z' l' x' y').count e'
                ≤ (s.cells z' l' x' y').count e' :=
                  count_bucketErase_le _ _ _ _ _ _ _ _ _ _ _
              _ ≤ 1 := inv.bucket_once e' z' l' x' y'
        · intro e' z' zo' hz'
          exact inv.zlist_once e' z' zo' hz'
        · intro e' z' zo' hz' hm
          have h1 := inv.zlist_sound e' z' zo' hz' hm
          by_cases hee : e' = e
          · subst hee
            have hzz : z' = zid := Option.some.inj (h1.1.symm.trans hzid)
            subst hzz
            refine ⟨?_, ?_⟩
            · simp only [eset_self]
              exact hzid
            · simp only [eset_self]
              exact (mem_bucketAppend_iff _ _ _ _ _ _ _ _ _ _ _).mpr
                (Or.inr ⟨rfl, rfl, rfl, rfl, rfl⟩)
          · simp only [eset_other _ _ _ _ hee]
            refine ⟨h1.1, ?_⟩
            exact (mem_bucketAppend_iff _ _ _ _ _ _ _ _ _ _ _).mpr
              (Or.inl (mem_bucketErase_of_ne _ _ _ _ _ _ _ _ _ _ _ hee h1.2))
        · intro e' z' l' x' y' hm
          simp only [mem_bucketAppend_iff] at hm
          rcases hm with hm | ⟨he, hz', hl', hx', hy'⟩
          · exact inv.bucket_zlist e' z' l' x' y'
              (mem_of_mem_bucketErase _ _ _ _ _ _ _ _ _ _ _ hm)
          · subst he; subst hz'
            exact inv.bucket_zlist _ _ _ _ _ hmF

/-- Every state reachable under disciplined use of the grid operations
satisfies the occupancy invariant. -/
theorem gridInv_reach : ∀ s : GridState, ReachDisc s → GridInv s := by
  intro s h
  induction h with
  | start ents0 hclean => exact gridInv_init ents0
  | czone s zoneId w hh tiles _ ih => exact gridInv_createZone ih zoneId w hh tiles
  | setcz s zoneId _ ih => exact gridInv_setCurrentZone ih zoneId
  | reg s e x y layer zoneId hfresh _ ih => exact gridInv_register ih e x y layer zoneId hfresh
  | mv s e x y hreg _ ih => exact gridInv_move ih e x y hreg
  | unreg s e _ ih => exact gridInv_unregister ih e

/-- Counterexample to claim C2 as stated: after the reachable sequence
createZone, registerEntity, unregisterEntity, the entity still carries
its zone assignment (`unregisterEntity` never clears `zoneId`) yet
occupies no occupancy bucket at all — in particular not the bucket keyed
by its own (zoneId, layer, gridX, gridY) — so "appears in exactly one
occupancy bucket" fails.  (A double `registerEntity` similarly puts the
entity twice into one bucket.) -/
theorem C2_counterexample : ¬ (∀ s : GridState, ReachAny s → OccupancyClaim s) := by
  intro hclaim
  have hreach : ReachAny c2Grid := ⟨blankEnts, c2Ops, fun e => rfl, rfl⟩
  have h := hclaim c2Grid hreach "e" "A" (by decide)
  have hm : "e" ∈ c2Grid.cells "A" 2 0 0 :=
    (h.1 "A" 2 0 0).mpr ⟨rfl, by decide, by decide, by decide⟩
  exact absurd hm (by decide)

/-- Amended claim C2: for every state produced by a sequence of grid
operations in which `registerEntity` is invoked only on entities not
currently occupying a bucket and `moveEntity` only on entities currently
occupying one, every entity *currently occupying a bucket* occupies
exactly the bucket keyed by its (zoneId, layer, gridX, gridY) — exactly
once, and no other bucket — and appears exactly once in its zone's
entity list.  (Field-level zone assignment alone is not enough: an
unregistered entity keeps a stale `zoneId`.) -/
theorem C2_occupancy_amended (s : GridState) (hreach : ReachDisc s)
    (e : EId) (z : String) (l : Nat) (x y : Int)
    (hm : e ∈ s.cells z l x y) :
    ((s.ents e).zoneId = some z ∧ (s.ents e).layer = l ∧ (s.ents e).gridX = x ∧
      (s.ents e).gridY = y) ∧
    (s.cells z l x y).count e = 1 ∧
    (∀ z' l' x' y', e ∈ s.cells z' l' x' y' → z' = z ∧ l' = l ∧ x' = x ∧ y' = y) ∧
    ∃ zo, s.zones z = some zo ∧ zo.entities.count e = 1 := by
  have inv := gridInv_reach s hreach
  have hf := inv.bucket_sound e z l x y hm
  refine ⟨hf, ?_, ?_, ?_⟩
  · have h1 := inv.bucket_once e z l x y
    have h2 : 0 < (s.cells z l x y).count e := List.count_pos_iff.mpr hm
    omega
  · intro z' l' x' y' h
    have hf' := inv.bucket_sound e z' l' x' y' h
    exact ⟨Option.some.inj (hf'.1.symm.trans hf.1), hf'.2.1.symm.trans hf.2.1,
      hf'.2.2.1.symm.trans hf.2.2.1, hf'.2.2.2.symm.trans hf.2.2.2⟩
  · obtain ⟨zo, hzo, hmem⟩ := inv.bucket_zlist e z l x y hm
    refine ⟨zo, hzo, ?_⟩
    have h1 := inv.zlist_once e z zo hzo
    have h2 : 0 < zo.entities.count e := List.count_pos_iff.mpr hmem
    omega

/-- Witness for the amended C2: the 1×1 zone `A` with `e` registered at
(0,0), reached by disciplined operations. -/
theorem C2_occupancy_amended_witness :
    "e" ∈ regGrid.cells "A" 2 0 0 ∧
    (((regGrid.ents "e").zoneId = some "A" ∧ (regGrid.ents "e").layer = 2 ∧
      (regGrid.ents "e").gridX = 0 ∧ (regGrid.ents "e").gridY = 0) ∧
    (regGrid.cells "A" 2 0 0).count "e" = 1 ∧
    (∀ z' l' x' y', "e" ∈ regGrid.cells z' l' x' y' →
        z' = "A" ∧ l' = 2 ∧ x' = 0 ∧ y' = 0) ∧
    ∃ zo, regGrid.zones "A" = some zo ∧ zo.entities.count "e" = 1) := by
  have hfresh : ¬ Registered (Grid.createZone (initGrid blankEnts) "A" 1 1 []) "e" := by
    intro hr
    obtain ⟨z, l, x, y, hm⟩ := hr
    rw [createZone_cells] at hm
    revert hm
    simp only [initGrid]
    split <;> simp
  have hd : ReachDisc regGrid :=
    ReachDisc.reg _ "e" 0 0 2 (some "A") hfresh
      (ReachDisc.czone _ "A" 1 1 [] (ReachDisc.start blankEnts (fun e => rfl)))
  exact ⟨by decide, C2_occupancy_amended regGrid hd "e" "A" 2 0 0 (by decide)⟩

/-! ### Claim C8: the state store -/

theorem objGet_objSet_self (f : List (String × StateManager.JVal)) (k : String)
    (v : StateManager.JVal) :
    StateManager.objGet (StateManager.objSet f k v) k = some v := by
  induction f with
  | nil => simp [StateManager.objSet, StateManager.objGet, List.lookup]
  | cons p t ih =>
      obtain ⟨k', w⟩ := p
      by_cases hp : k' = k
      · simp [StateManager.objSet, StateManager.objGet, List.lookup, hp]
      · have hbe : (k == k') = false := beq_eq_false_iff_ne.mpr (Ne.symm hp)
        simp only [StateManager.objSet, if_neg hp]
        simp only [StateManager.objGet, List.lookup, hbe] at ih ⊢
        exact ih

theorem objSet_self_of_get (f : List (String × StateManager.JVal)) (k : String)
    (w : StateManager.JVal) (h : StateManager.objGet f k = some w) :
    StateManager.objSet f k w = f := by
  induction f with
  | nil => simp [StateManager.objGet, List.lookup] at h
  | cons p t ih =>
      obtain ⟨k', u⟩ := p
      by_cases hp : k' = k
      · subst hp
        simp only [StateManager.objGet, List.lookup, beq_self_eq_true] at h
        cases h
        simp [StateManager.objSet]
      · have hbe : (k == k') = false := beq_eq_false_iff_ne.mpr (Ne.symm hp)
        simp only [StateManager.objGet, List.lookup, hbe] at h
        simp only [StateManager.objSet, if_neg hp]
        rw [ih h]

theorem resolve_none : ∀ q, StateManager.resolve none q = none := by
  intro q
  cases q <;> rfl

theorem resolve_nil (cur : Option StateManager.JVal) :
    StateManager.resolve cur [] = cur := by
  cases cur with
  | none => rfl
  | some v => cases v <;> rfl

theorem resolve_obj_cons (f : List (String × StateManager.JVal)) (p : String)
    (q : List String) :
    StateManager.resolve (some (.jobj f)) (p :: q)
      = StateManager.resolve (StateManager.objGet f p) q := rfl

theorem resolve_emptyobj_cons (p : String) (q : List String) :
    StateManager.resolve (some (.jobj [])) (p :: q) = none := by
  rw [resolve_obj_cons]
  simp only [StateManager.objGet, List.lookup]
  exact resolve_none q

theorem prefixOk_nil : ∀ parts : List String, StateManager.PrefixOk [] parts := by
  intro parts k h1 h2
  cases parts with
  | nil => simp at h2; omega
  | cons p t =>
      obtain ⟨k0, rfl⟩ : ∃ k0, k = k0 + 1 := ⟨k - 1, by omega⟩
      rw [List.take_succ_cons, resolve_emptyobj_cons]
      rfl

theorem prefixOk_tail_obj {fields : List (String × StateManager.JVal)} {p : String}
    {rest : List String} {f2 : List (String × StateManager.JVal)}
    (h : StateManager.PrefixOk fields (p :: rest))
    (hget : StateManager.objGet fields p = some (.jobj f2)) :
    StateManager.PrefixOk f2 rest := by
  intro k h1 h2
  have hk := h (k + 1) (by omega) (by simp; omega)
  rw [List.take_succ_cons, resolve_obj_cons, hget] at hk
  exact hk

theorem splitDotsGo_ne_nil : ∀ l : List Char, StateManager.splitDotsGo l ≠ [] := by
  intro l
  induction l with
  | nil => simp [StateManager.splitDotsGo]
  | cons c t ih =>
      by_cases hc : c = '.'
      · simp [StateManager.splitDotsGo, hc]
      · simp only [StateManager.splitDotsGo, if_neg hc]
        cases hgo : StateManager.splitDotsGo t with
        | nil => exact absurd hgo ih
        | cons h r => simp

theorem pathSplit_ne_nil (s : String) : StateManager.pathSplit s ≠ [] := by
  unfold StateManager.pathSplit
  intro h
  rw [List.map_eq_nil] at h
  exact splitDotsGo_ne_nil s.data h

/-- Core correctness of the `set` navigation/write loop under the amended
claim's proviso: no strict-proper navigation stage is a non-null
primitive.  Part one: when the value stored at the full path is
strict-equal to the new value, nothing changes and no notification info
is produced.  Part two: otherwise the write lands (reading the path back
yields the new value) and the notification info carries the old value
(`none` = `undefined`). -/
theorem setGo_spec : ∀ (parts : List String) (fields : List (String × StateManager.JVal))
    (lastP : String) (v : StateManager.JVal),
    StateManager.PrefixOk fields parts →
    ((∀ o, StateManager.resolve (some (.jobj fields)) (parts ++ [lastP]) = some o →
        StateManager.jsStrictEq o v = true →
        StateManager.setGo fields parts lastP v = some (fields, none)) ∧
     ((∀ o, StateManager.resolve (some (.jobj fields)) (parts ++ [lastP]) = some o →
          StateManager.jsStrictEq o v = false) →
        ∃ fields', StateManager.setGo fields parts lastP v
            = some (fields',
                some (StateManager.resolve (some (.jobj fields)) (parts ++ [lastP]))) ∧
          StateManager.resolve (some (.jobj fields')) (parts ++ [lastP]) = some v)) := by
  intro parts
  induction parts with
  | nil =>
      intro fields lastP v _
      have hres0 : StateManager.resolve (some (.jobj fields)) ([] ++ [lastP])
          = StateManager.objGet fields lastP := by
        rw [List.nil_append, resolve_obj_cons, resolve_nil]
      constructor
      · intro o hres heq
        rw [hres0] at hres
        simp only [StateManager.setGo, hres]
        rw [if_pos heq]
      · intro hno
        cases hres : StateManager.objGet fields lastP with
        | some o =>
            have heq := hno o (by rw [hres0]; exact hres)
            refine ⟨StateManager.objSet fields lastP v, ?_, ?_⟩
            · simp only [StateManager.setGo, hres]
              rw [if_neg (by simp [heq]), hres0, hres]
            · rw [List.nil_append, resolve_obj_cons, objGet_objSet_self]
              rfl
        | none =>
            refine ⟨StateManager.objSet fields lastP v, ?_, ?_⟩
            · simp only [StateManager.setGo, hres]
              rw [hres0, hres]
            · rw [List.nil_append, resolve_obj_cons, objGet_objSet_self]
              rfl
  | cons p rest ih =>
      intro fields lastP v hok
      have hp1 := hok 1 (by omega) (by simp)
      rw [List.take_succ_cons, List.take_zero, resolve_obj_cons, resolve_nil] at hp1
      have hstep : ∀ f2' : List (String × StateManager.JVal),
          StateManager.resolve (some (.jobj (StateManager.objSet fields p (.jobj f2'))))
              ((p :: rest) ++ [lastP])
            = StateManager.resolve (some (.jobj f2')) (rest ++ [lastP]) := by
        intro f2'
        rw [List.cons_append, resolve_obj_cons, objGet_objSet_self]
      cases hget : StateManager.objGet fields p with
      | none =>
          have hresall : StateManager.resolve (some (.jobj fields)) ((p :: rest) ++ [lastP])
              = none := by
            rw [List.cons_append, resolve_obj_cons, hget]
            exact resolve_none _
          have hreszero : StateManager.resolve (some (.jobj ([] : List (String × StateManager.JVal))))
              (rest ++ [lastP]) = none := by
            cases hq : rest ++ [lastP] with
            | nil => exact absurd hq (by simp)
            | cons q t => exact resolve_emptyobj_cons q t
          obtain ⟨f2', hgo, hres'⟩ := (ih [] lastP v (prefixOk_nil rest)).2
            (fun o ho => by rw [hreszero] at ho; cases ho)
          constructor
          · intro o hres heq
            rw [hresall] at hres
            cases hres
          · intro _
            refine ⟨StateManager.objSet fields p (.jobj f2'), ?_, ?_⟩
            · simp only [StateManager.setGo, hget, hgo, hresall, hreszero]
            · rw [hstep]
              exact hres'
      | some w =>
          cases w with
          | jnull =>
              have hresall : StateManager.resolve (some (.jobj fields)) ((p :: rest) ++ [lastP])
                  = none := by
                rw [List.cons_append, resolve_obj_cons, hget]
                cases hq : rest ++ [lastP] with
                | nil => exact absurd hq (by simp)
                | cons q t => rfl
              have hreszero : StateManager.resolve (some (.jobj ([] : List (String × StateManager.JVal))))
                  (rest ++ [lastP]) = none := by
                cases hq : rest ++ [lastP] with
                | nil => exact absurd hq (by simp)
                | cons q t => exact resolve_emptyobj_cons q t
              obtain ⟨f2', hgo, hres'⟩ := (ih [] lastP v (prefixOk_nil rest)).2
                (fun o ho => by rw [hreszero] at ho; cases ho)
              constructor
              · intro o hres heq
                rw [hresall] at hres
                cases hres
              · intro _
                refine ⟨StateManager.objSet fields p (.jobj f2'), ?_, ?_⟩
                · simp only [StateManager.setGo, hget, hgo, hresall, hreszero]
                · rw [hstep]
                  exact hres'
          | jnum n => rw [hget] at hp1; simp [StateManager.IsPrimB] at hp1
          | jstr st => rw [hget] at hp1; simp [StateManager.IsPrimB] at hp1
          | jbool b => rw [hget] at hp1; simp [StateManager.IsPrimB] at hp1
          | jobj f2 =>
              have hok2 := prefixOk_tail_obj hok hget
              have hresall : StateManager.resolve (some (.jobj fields)) ((p :: rest) ++ [lastP])
                  = StateManager.resolve (some (.jobj f2)) (rest ++ [lastP]) := by
                rw [List.cons_append, resolve_obj_cons, hget]
              constructor
              · intro o hres heq
                rw [hresall] at hres
                have hgoA := (ih f2 lastP v hok2).1 o hres heq
                simp only [StateManager.setGo, hget, hgoA]
                rw [objSet_self_of_get fields p (.jobj f2) hget]
              · intro hno
                obtain ⟨f2', hgo, hres'⟩ := (ih f2 lastP v hok2).2
                  (fun o ho => hno o (by rw [hresall]; exact ho))
                refine ⟨StateManager.objSet fields p (.jobj f2'), ?_, ?_⟩
                · simp only [StateManager.setGo, hget, hgo, hresall]
                · rw [hstep]
                  exact hres'

/-- Counterexample to claim C8 as stated: with state `{a: 5}` the path
`a.b` runs through the primitive `5`; `set("a.b", 42)` then *notifies*
the exact-path subscriber with (42, undefined) and the ancestor
subscriber at `a` — but stores nothing: the tree is unchanged and
`get("a.b")` still yields the default.  The claim's "otherwise set(p,v)
stores v" is false here. -/
theorem C8_counterexample :
    StateManager.set c8Subs c8Root "a.b" (.jnum 42)
      = some (c8Root,
          [(1, "a.b", some (.jnum 42), none),
           (2, "a", some (.jnum 5), some (.jnum 5))]) ∧
    StateManager.get c8Root "a.b" (.jstr "dflt") = .jstr "dflt" :=
  ⟨rfl, rfl⟩

/-- Amended claim C8: provided no strict-proper stage of the path resolves
to a non-null primitive (missing or `null` stages are fine — they become
fresh objects): if the new value is strict-equal to the value stored at
the path, `set` changes nothing and notifies nobody; otherwise `set`
stores the value (reading the path back yields it for any default) and
issues exactly the notification sequence of `notifySubscribers`:
exact-path subscribers with (newValue, oldValue, path), then each strict
ancestor path's subscribers with the ancestor's current value as both
arguments.  In particular (scenario) a `stats` subscriber is invoked by
`set("stats.fps", 42)`. -/
theorem C8_state_set_amended :
    (∀ (subs : String → List StateManager.SubId)
        (root : List (String × StateManager.JVal)) (path : String)
        (v : StateManager.JVal) (parts : List String),
        StateManager.pathSplit path = parts →
        StateManager.PrefixOk root parts.dropLast →
        ((∀ o, StateManager.resolve (some (.jobj root)) parts = some o →
            StateManager.jsStrictEq o v = true →
            StateManager.set subs root path v = some (root, [])) ∧
         ((∀ o, StateManager.resolve (some (.jobj root)) parts = some o →
              StateManager.jsStrictEq o v = false) →
          ∃ root', StateManager.set subs root path v
              = some (root', StateManager.notifySubscribers subs root' path v
                  (StateManager.resolve (some (.jobj root)) parts)) ∧
            (∀ dflt, StateManager.get root' path dflt = v)))) ∧
    StateManager.set statsSubs [] "stats.fps" (.jnum 42)
      = some ([("stats", .jobj [("fps", .jnum 42)])],
          [(7, "stats", some (.jobj [("fps", .jnum 42)]),
            some (.jobj [("fps", .jnum 42)]))]) := by
  constructor
  · intro subs root path v parts hsplit hok
    have hne : parts ≠ [] := by
      rw [← hsplit]
      exact pathSplit_ne_nil path
    have hdecomp : parts.dropLast ++ [parts.getLastD ""] = parts := by
      rcases List.eq_nil_or_concat parts with rfl | ⟨L, b, rfl⟩
      · exact absurd rfl hne
      · simp
    have hspec := setGo_spec parts.dropLast root (parts.getLastD "") v hok
    constructor
    · intro o hres heq
      have h1 := hspec.1 o (by rw [hdecomp]; exact hres) heq
      unfold StateManager.set
      rw [hsplit]
      simp only [h1]
    · intro hno
      obtain ⟨root', hgo, hres'⟩ := hspec.2
        (fun o ho => hno o (by rw [← hdecomp]; exact ho))
      refine ⟨root', ?_, ?_⟩
      · unfold StateManager.set
        rw [hsplit]
        simp only [hgo]
        rw [hdecomp]
      · intro dflt
        have hr := hres'
        rw [hdecomp] at hr
        unfold StateManager.get
        rw [hsplit]
        simp only [hr]
  · rfl

/-- Witness for the amended C8: `set("stats.fps", 42)` on the empty tree,
with a subscriber at `stats`. -/
theorem C8_state_set_amended_witness :
    StateManager.pathSplit "stats.fps" = ["stats", "fps"] ∧
    (∃ root', StateManager.set statsSubs [] "stats.fps" (.jnum 42)
        = some (root', StateManager.notifySubscribers statsSubs root' "stats.fps"
            (.jnum 42) (StateManager.resolve (some (.jobj [])) ["stats", "fps"])) ∧
      (∀ dflt, StateManager.get root' "stats.fps" dflt = .jnum 42)) :=
  ⟨by decide,
   (C8_state_set_amended.1 statsSubs [] "stats.fps" (.jnum 42) ["stats", "fps"]
      (by decide) (prefixOk_nil _)).2
      (fun o ho => by rw [resolve_emptyobj_cons] at ho; simp at ho)⟩

end PocketHero
